import Mathlib

/-!
Verification of the VelocityPulse network-monitoring agent.

This file shallowly embeds the agent's core algorithms in Lean 4 and proves
(or refutes) the frozen specification claims about them:

* semantic-version comparison and the auto-upgrade gate
  (`src/src/utils/version.ts`),
* the multi-protocol probe cascade (`multiProbe` in `src/dist/index.js`),
* the status hysteresis state machine and the pruning of the tracking maps
  (`statusCheckLoop` / `pruneDeviceTracking` in `src/dist/index.js`),
* the discovered-device merge engine (`mergeDiscoveredDevices` in
  `src/dist/scanner/discover.js`),
* the heartbeat loop's retry/backoff bookkeeping (`heartbeatLoop`),
* the command-processing acknowledgment discipline (`processCommands`),
* CIDR expansion with JavaScript 32-bit arithmetic semantics
  (`parseCidr` / `expandCidr` in `src/src/utils/ip-utils.ts`),
* the scan loop's non-destructive device-table merge (`scanLoop`).

JavaScript `Map`s are modelled as association lists in insertion order;
JavaScript 32-bit bitwise arithmetic is modelled with explicit `% 2^32`
wrapping on `Int`/`Nat`; fallible code returns `Except`/`Option`.
JavaScript strings are modelled as Lean `String`s, with the string
operations the source uses (`split`, `parseInt`, `startsWith`, `endsWith`)
written as structural recursion over the character list so that every
definition evaluates inside the kernel.
-/

namespace VelocityPulse

/-- JavaScript string truthiness for optional string fields:
`undefined` and the empty string are falsy. -/
def strTruthy : Option String → Bool
  | none => false
  | some s => s ≠ ""

/-- `s.split(sep)` for a one-character separator, on the character list. -/
def splitOnChar (sep : Char) : List Char → List (List Char)
  | [] => [[]]
  | c :: cs =>
    if c = sep then [] :: splitOnChar sep cs
    else match splitOnChar sep cs with
      | [] => [[c]]
      | g :: gs => (c :: g) :: gs

/-- `s.endsWith(suffix)` on character lists. -/
def strEndsWith (s suffix : String) : Bool :=
  s.data.reverse.take suffix.data.length = suffix.data.reverse

/-! ## Version utilities (`src/src/utils/version.ts`) -/

/-- `parseInt(part, 10) || 0` for one dot-separated version component:
the value of the leading decimal digits, `0` when there are none
(`parseInt` returns `NaN`, which `|| 0` turns into `0`). -/
def parseIntOr0 (part : List Char) : Nat :=
  (part.takeWhile Char.isDigit).foldl
    (fun n c => n * 10 + (c.toNat - '0'.toNat)) 0

/-- `v.replace(/^v/, '')`: strip a single leading `v`. -/
def stripLeadingV : List Char → List Char
  | 'v' :: rest => rest
  | s => s

/-- The version-string parser shared by `compareVersions` and
`parseVersion`: strip a leading `v`, split on `.`, `parseInt` each part. -/
def versionParts (v : String) : List Nat :=
  (splitOnChar '.' (stripLeadingV v.data)).map parseIntOr0

/-- The comparison `for` loop of `compareVersions` over two equal-length
numeric lists: -1/0/1 at the first differing component. -/
def compareParts : List Nat → List Nat → Int
  | a :: as, b :: bs =>
    if a < b then -1 else if b < a then 1 else compareParts as bs
  | _, _ => 0

/-- `compareVersions(a, b)` from `version.ts`: parse both versions, pad the
shorter list with zeros, compare component-wise. -/
def compareVersions (a b : String) : Int :=
  let partsA := versionParts a
  let partsB := versionParts b
  let maxLen := max partsA.length partsB.length
  compareParts (partsA ++ List.replicate (maxLen - partsA.length) 0)
    (partsB ++ List.replicate (maxLen - partsB.length) 0)

/-- `isNewerVersion(latest, current)`. -/
def isNewerVersion (latest current : String) : Bool :=
  compareVersions latest current > 0

/-- `parseVersion(version)`: major/minor/patch components, each
`parseInt(parts[i], 10) || 0` (missing components become 0). -/
def parseVersion (version : String) : Nat × Nat × Nat :=
  let parts := splitOnChar '.' (stripLeadingV version.data)
  (parseIntOr0 (parts.getD 0 []), parseIntOr0 (parts.getD 1 []),
    parseIntOr0 (parts.getD 2 []))

/-- `isMajorUpgrade(latest, current)`. -/
def isMajorUpgrade (latest current : String) : Bool :=
  (parseVersion latest).1 > (parseVersion current).1

/-- `isMinorUpgrade(latest, current)`. -/
def isMinorUpgrade (latest current : String) : Bool :=
  (parseVersion latest).1 = (parseVersion current).1 &&
    (parseVersion latest).2.1 > (parseVersion current).2.1

/-- `shouldAutoUpgrade(latest, current, autoUpgradeOnMinor)` from
`version.ts`: refuse non-upgrades and major bumps, gate minor bumps on the
flag, allow everything else (patch upgrades). -/
def shouldAutoUpgrade (latest current : String)
    (autoUpgradeOnMinor : Bool) : Bool :=
  if ¬ isNewerVersion latest current then false
  else if isMajorUpgrade latest current then false
  else if isMinorUpgrade latest current then autoUpgradeOnMinor
  else true

/-! ## Device status and the probe cascade (`multiProbe` in
`src/dist/index.js`) -/

/-- The status vocabulary of `DeviceInfo` and status reports. -/
inductive Status
  | online
  | offline
  | degraded
  | unknown
deriving DecidableEq, Repr

/-- Result of `pingHost` as consumed by `multiProbe`: a status plus
`response_time_ms` (`null` modelled as `none`). -/
structure PingResult where
  status : Status
  response_time_ms : Option Nat
deriving DecidableEq, Repr

/-- Outcome of one `checkTcpPort(ip, port)` call: the promise either
rejects (swallowed by the empty `catch` in `multiProbe`) or resolves with
a status and response time. -/
inductive TcpOutcome
  | throws
  | result (status : Status) (response_time_ms : Option Nat)
deriving DecidableEq

/-- The probe environment for one IP: what the ICMP ping and each TCP
port-connect attempt would return.  `multiProbe` is a pure function of
this environment. -/
structure ProbeEnv where
  ping : PingResult
  tcp : Nat → TcpOutcome

/-- The fixed fallback port list `PROBE_PORTS` of `multiProbe`. -/
def PROBE_PORTS : List (Nat × String) :=
  [(80, "HTTP"), (443, "HTTPS"), (22, "SSH"), (3389, "RDP"),
    (445, "SMB"), (53, "DNS")]

/-- The overall result of `multiProbe`. -/
structure ProbeResult where
  status : Status
  responseTime : Option Nat
  method : String
deriving DecidableEq, Repr

/-- One entry of the `portChecks` array: `some` result when the TCP check
resolved with status `online`, otherwise `null`. -/
def portCheck (env : ProbeEnv) (port : Nat) (name : String) :
    Option ProbeResult :=
  match env.tcp port with
  | .throws => none
  | .result s rt =>
    if s = .online then some ⟨.online, rt, name⟩ else none

/-- `multiProbe(ip)`: try ping first; if it reports `online`, return
`online` with method `ping`; otherwise run the six TCP port checks and
take the first (in `PROBE_PORTS` order) non-`null` result; if none,
return `offline` with `responseTime = null` and method `none`. -/
def multiProbe (env : ProbeEnv) : ProbeResult :=
  if env.ping.status = .online then
    ⟨.online, env.ping.response_time_ms, "ping"⟩
  else
    match (PROBE_PORTS.map fun pn => portCheck env pn.1 pn.2).findSome? id with
    | some r => r
    | none => ⟨.offline, none, "none"⟩

/-! ## JavaScript `Map`s as association lists

A `Map` keyed by device IP is modelled as a `List (String × α)` in
insertion order.  `aset` is `Map.set` (replace in place or append) and
`alookup` is `Map.get`. -/

/-- `Map.get(k)`: the value of the first entry with key `k`. -/
def alookup (k : String) : List (String × α) → Option α
  | [] => none
  | (k', v) :: rest => if k' = k then some v else alookup k rest

/-- `Map.set(k, v)`: replace the entry for `k` in place, or append. -/
def aset (k : String) (v : α) : List (String × α) → List (String × α)
  | [] => [(k, v)]
  | (k', v') :: rest =>
    if k' = k then (k, v) :: rest else (k', v') :: aset k v rest

@[simp] theorem alookup_nil (k : String) : alookup k ([] : List (String × α)) = none := rfl

/-! ## Hysteresis engine and tracking-map pruning
(`statusCheckLoop` / `pruneDeviceTracking` in `src/dist/index.js`) -/

/-- The two module-level tracking maps: `deviceFailureCounts` and
`lastKnownStatus`, both keyed by device IP. -/
structure TrackState where
  failureCounts : List (String × Nat)
  lastKnownStatus : List (String × Status)
deriving DecidableEq, Repr

/-- The hysteresis block of `statusCheckLoop` (lines 358–370) for one
device and one raw probe status: a raw `offline` while the last reported
status was `online` increments the failure count and keeps reporting
`online` while the count is below the threshold; a raw `online` resets
the count to 0; the (possibly suppressed) status is recorded in
`lastKnownStatus` and reported. -/
def applyHysteresis (threshold : Nat) (st : TrackState) (ip : String)
    (raw : Status) : TrackState × Status :=
  let previousStatus := alookup ip st.lastKnownStatus
  let failureCount := (alookup ip st.failureCounts).getD 0
  let (fc, status) :=
    if raw = .offline ∧ previousStatus = some .online then
      if failureCount < threshold then
        (aset ip (failureCount + 1) st.failureCounts, Status.online)
      else (st.failureCounts, raw)
    else if raw = .online then (aset ip 0 st.failureCounts, raw)
    else (st.failureCounts, raw)
  ({ failureCounts := fc, lastKnownStatus := aset ip status st.lastKnownStatus },
    status)

/-- `pruneDeviceTracking(activeKeys)`: iterate over the keys of
`deviceFailureCounts`; every key not in `activeKeys` is deleted from both
maps.  Keys present only in `lastKnownStatus` are never visited. -/
def pruneDeviceTracking (activeKeys : List String) (st : TrackState) :
    TrackState :=
  { failureCounts := st.failureCounts.filter fun p => activeKeys.contains p.1,
    lastKnownStatus := st.lastKnownStatus.filter fun p =>
      activeKeys.contains p.1 || !(alookup p.1 st.failureCounts).isSome }

/-! ## Status-check cycle (`statusCheckLoop` body in `src/dist/index.js`) -/

/-- The UI/report projection of a discovered device, keyed by IP
(`DeviceInfo`). -/
structure DeviceInfo where
  id : String
  name : String
  ip : String
  mac : Option String
  status : Status
  responseTime : Option Nat
  lastCheck : Option String
deriving DecidableEq, Repr

/-- One iteration of `statusCheckLoop` as it affects the tracking maps:
when there are no devices the loop `continue`s without pruning; otherwise
each device is skipped if its key is empty, `---`, or ends in `.255` or
`.0` (forced offline, excluded from tracking), and probed through the
hysteresis step otherwise; finally `pruneDeviceTracking` runs over the
keys that were actually probed. -/
def statusCheckCycle (threshold : Nat) (devices : List DeviceInfo)
    (probe : String → Status) (st : TrackState) : TrackState :=
  if devices.isEmpty then st
  else
    let folded := devices.foldl
      (fun (acc : TrackState × List String) d =>
        if d.ip = "" ∨ d.ip = "---" then acc
        else if strEndsWith d.ip ".255" ∨ strEndsWith d.ip ".0" then acc
        else ((applyHysteresis threshold acc.1 d.ip (probe d.ip)).1,
          acc.2 ++ [d.ip]))
      (st, ([] : List String))
    pruneDeviceTracking folded.2 folded.1

/-! ## Heartbeat loop bookkeeping (`heartbeatLoop` in `src/dist/index.js`) -/

/-- One iteration of `heartbeatLoop`, as a function of whether the
heartbeat call succeeded: the first component is the new `retryDelay`
variable (reset to 2000 on success, doubled and capped at 60000 on
failure); the second component is the delay actually slept before the
next attempt, which the source computes as
`Math.min(config.heartbeatInterval, 60000)` without consulting
`retryDelay`. -/
def heartbeatStep (heartbeatInterval : Nat) (retryDelay : Nat)
    (success : Bool) : Nat × Nat :=
  (if success then 2000 else min (retryDelay * 2) 60000,
    min heartbeatInterval 60000)

/-- The `retryDelay` value after a run of outcomes, starting from the
initial 2000. -/
def heartbeatRetryDelayAfter (outcomes : List Bool) : Nat :=
  outcomes.foldl (fun rd ok => (heartbeatStep 60000 rd ok).1) 2000

/-! ## Discovered devices and the merge engine
(`mergeDiscoveredDevices` in `src/dist/scanner/discover.js`) -/

/-- `snmp_info` from the SNMP scanner. -/
structure SnmpInfo where
  sysName : Option String
  sysDescr : Option String
  sysContact : Option String
  sysLocation : Option String
deriving DecidableEq, Repr

/-- `upnp_info` from the SSDP scanner. -/
structure UpnpInfo where
  friendlyName : Option String
  deviceType : Option String
  manufacturer : Option String
deriving DecidableEq, Repr

/-- `device_type` classification. -/
inductive DeviceType
  | server
  | workstation
  | network
  | printer
  | iot
  | unknown
deriving DecidableEq, Repr

/-- A `DiscoveredDevice` record (`src/dist/scanner/arp.d.ts`).  Optional
string fields distinguish `undefined` (`none`) from present values;
optional arrays distinguish `undefined` from a present (possibly empty)
array, since the merge guards test `device.field?.length`. -/
structure DiscoveredDevice where
  ip_address : String
  mac_address : Option String := none
  hostname : Option String := none
  manufacturer : Option String := none
  os_hints : Option (List String) := none
  device_type : Option DeviceType := none
  open_ports : Option (List Nat) := none
  services : Option (List String) := none
  netbios_name : Option String := none
  snmp_info : Option SnmpInfo := none
  upnp_info : Option UpnpInfo := none
  discovery_method : String := "arp"
deriving DecidableEq, Repr

/-- `[...new Set([...xs, ...ys])]`: concatenate and keep the first
occurrence of each element, in order. -/
def jsSetUnion (seen : List α) [DecidableEq α] : List α → List α → List α :=
  fun xs ys => go seen (xs ++ ys)
where go (seen : List α) : List α → List α
  | [] => []
  | x :: rest => if x ∈ seen then go seen rest else x :: go (x :: seen) rest

/-- JavaScript truthiness of `device.field?.length` for an optional
array: true exactly for a present, non-empty array. -/
def optListNonempty : Option (List α) → Bool
  | some (_ :: _) => true
  | _ => false

/-- `if (device.f && !existing.f) existing.f = device.f` for a string
field (empty strings are falsy). -/
def fillStep (existingF incomingF : Option String) : Option String :=
  if strTruthy incomingF && !strTruthy existingF then incomingF
  else existingF

/-- `if (device.f && !existing.f) existing.f = device.f` for an object
field (any present object is truthy). -/
def fillStepO (existingF incomingF : Option β) : Option β :=
  if incomingF.isSome && !existingF.isSome then incomingF
  else existingF

/-- `if (device.c?.length) existing.c = [...new Set([...(existing.c ||
[]), ...device.c])]` for a collection field. -/
def unionStep [DecidableEq α] (existingC incomingC : Option (List α)) :
    Option (List α) :=
  if optListNonempty incomingC then
    some (jsSetUnion [] (existingC.getD []) (incomingC.getD []))
  else existingC

/-- The in-place field merge of `mergeDiscoveredDevices` for one existing
record and one incoming record with the same IP: scalar fields are filled
only when the existing value is missing/empty, array fields are
set-unioned (only when the incoming array is non-empty), everything else
(including `ip_address`, `device_type`, `discovery_method`) is kept from
the existing record. -/
def combineDevice (existing d : DiscoveredDevice) : DiscoveredDevice :=
  { existing with
    mac_address := fillStep existing.mac_address d.mac_address,
    hostname := fillStep existing.hostname d.hostname,
    manufacturer := fillStep existing.manufacturer d.manufacturer,
    upnp_info := fillStepO existing.upnp_info d.upnp_info,
    netbios_name := fillStep existing.netbios_name d.netbios_name,
    snmp_info := fillStepO existing.snmp_info d.snmp_info,
    os_hints := unionStep existing.os_hints d.os_hints,
    open_ports := unionStep existing.open_ports d.open_ports,
    services := unionStep existing.services d.services }

/-- Insert one record into the merged map: new IPs are appended as a copy
of the record, existing IPs are merged in place with `combineDevice`. -/
def mergeInto (acc : List DiscoveredDevice) (d : DiscoveredDevice) :
    List DiscoveredDevice :=
  if acc.any (fun e => e.ip_address = d.ip_address) then
    acc.map fun e =>
      if e.ip_address = d.ip_address then combineDevice e d else e
  else acc ++ [d]

/-- `mergeDiscoveredDevices(...deviceArrays)`: fold every record of every
array into a map keyed by IP, in order, and return the map's values in
insertion order. -/
def mergeDiscoveredDevices (deviceArrays : List (List DiscoveredDevice)) :
    List DiscoveredDevice :=
  deviceArrays.foldl (fun acc devices => devices.foldl mergeInto acc) []

/-- Find the merged record for an IP. -/
def findByIp (ip : String) (l : List DiscoveredDevice) :
    Option DiscoveredDevice :=
  l.find? fun e => e.ip_address = ip

/-- Sequential in-place merging of the records for one IP: the first
record is the base (`{...device}`), later ones are combined in. -/
def mergeRun : Option DiscoveredDevice → List DiscoveredDevice →
    Option DiscoveredDevice
  | acc, [] => acc
  | none, d :: rest => mergeRun (some d) rest
  | some e, d :: rest => mergeRun (some (combineDevice e d)) rest

/-- Combining a run of records into one base record. -/
def foldCombine (e : DiscoveredDevice) (ds : List DiscoveredDevice) :
    DiscoveredDevice :=
  ds.foldl combineDevice e

/-! Absorption machinery for the merge: a merged record that already
dominates an incoming record is unchanged by combining it in again. -/

/-- All three collection fields are duplicate-free (reading a missing
array as empty). -/
def collectionsNodup (r : DiscoveredDevice) : Prop :=
  (r.os_hints.getD []).Nodup ∧ (r.open_ports.getD []).Nodup ∧
    (r.services.getD []).Nodup

instance (r : DiscoveredDevice) : Decidable (collectionsNodup r) := by
  unfold collectionsNodup
  infer_instance

/-- `E` dominates `r`: every field `r` could contribute is already
present in `E`. -/
def canAbsorb (E r : DiscoveredDevice) : Prop :=
  (strTruthy r.mac_address = true → strTruthy E.mac_address = true) ∧
  (strTruthy r.hostname = true → strTruthy E.hostname = true) ∧
  (strTruthy r.manufacturer = true → strTruthy E.manufacturer = true) ∧
  (strTruthy r.netbios_name = true → strTruthy E.netbios_name = true) ∧
  (r.snmp_info.isSome = true → E.snmp_info.isSome = true) ∧
  (r.upnp_info.isSome = true → E.upnp_info.isSome = true) ∧
  (optListNonempty r.os_hints = true → optListNonempty E.os_hints = true ∧
    ∀ x ∈ r.os_hints.getD [], x ∈ E.os_hints.getD []) ∧
  (optListNonempty r.open_ports = true →
    optListNonempty E.open_ports = true ∧
    ∀ x ∈ r.open_ports.getD [], x ∈ E.open_ports.getD []) ∧
  (optListNonempty r.services = true → optListNonempty E.services = true ∧
    ∀ x ∈ r.services.getD [], x ∈ E.services.getD [])

/-- No two entries of the merged map share an IP. -/
def IpsUnique (l : List DiscoveredDevice) : Prop :=
  l.Pairwise fun x y => x.ip_address ≠ y.ip_address

/-! ## Scan-loop device-table merge (`scanLoop` in `src/dist/index.js`,
lines 237–250) -/

/-- The `DeviceInfo` the scan loop stores for one discovery record:
identity fields (`name`, `ip`, `mac`) come from the new record, while
`status`, `responseTime` and `lastCheck` are carried over from the
existing entry (status defaulting to `unknown` when there is none). -/
def scanLoopDeviceInfo (existing : Option DeviceInfo)
    (d : DiscoveredDevice) : DeviceInfo :=
  { id := d.ip_address,
    name := if strTruthy d.hostname then d.hostname.getD "" else d.ip_address,
    ip := d.ip_address,
    mac := d.mac_address,
    status := match existing with
      | some e => e.status
      | none => .unknown,
    responseTime := existing.bind DeviceInfo.responseTime,
    lastCheck := existing.bind DeviceInfo.lastCheck }

/-- One iteration of the scan loop's device-table update for a single
discovered record. -/
def scanLoopMergeDevice (table : List (String × DeviceInfo))
    (d : DiscoveredDevice) : List (String × DeviceInfo) :=
  aset d.ip_address (scanLoopDeviceInfo (alookup d.ip_address table) d) table

/-- The scan loop's full table update for one scan's result list. -/
def scanLoopMerge (table : List (String × DeviceInfo))
    (devices : List DiscoveredDevice) : List (String × DeviceInfo) :=
  devices.foldl scanLoopMergeDevice table

/-! ## Command processing (`processCommands` in `src/dist/index.js`)

The network/handler effects are abstracted into a per-command environment
recording which `await`ed calls would reject; `processCommands`' control
flow (the `switch`, the outer `catch` that turns an exception into a
failure acknowledgment, and the inner `catch` that swallows a failure of
that final acknowledgment) is embedded as a pure function from that
environment to the sequence of `acknowledgeCommand` calls made. -/

/-- The command vocabulary of `AgentCommand.command_type` (`unknown`
stands for any string outside the dispatch table, hitting `default`). -/
inductive CommandType
  | ping
  | scan_now
  | scan_segment
  | restart
  | upgrade
  | update_config
  | unknown
deriving DecidableEq, Repr

/-- `AgentCommand.status`. -/
inductive CmdStatus
  | pending
  | completed
  | failed
deriving DecidableEq, Repr

/-- An `AgentCommand` as far as acknowledgment behaviour is concerned. -/
structure AgentCommand where
  id : Nat
  command_type : CommandType
  status : CmdStatus
deriving DecidableEq, Repr

/-- Environment for processing one command: which awaited calls reject
and which validation/policy branches are taken.  `ackThrows n` says
whether the `n`-th `acknowledgeCommand` call made for this command
rejects. -/
structure CmdEnv where
  sendPongThrows : Bool
  workThrows : Bool
  ackThrows : Nat → Bool
  payloadOk : Bool
  segmentFound : Bool
  segmentScanning : Bool
  enableAutoUpgrade : Bool
  policyAllows : Bool
  upgradeThrows : Bool

/-- The observable outcome of processing one command: the
`acknowledgeCommand` calls made (success flag of the call, and whether
the call itself rejected), whether `client.sendPong` was called, and
whether the process exited (`restart`). -/
structure CmdOutcome where
  acks : List (Bool × Bool)
  pong : Bool
  exited : Bool
deriving Repr

/-- An `acknowledgeCommand(id, success, ...)` call made inside the `try`
block: if it rejects, control falls to the outer `catch`, which makes one
more `acknowledgeCommand(id, false, ..., errorMsg)` call whose own
rejection is swallowed by the inner `catch`. -/
def ackInTry (env : CmdEnv) (success : Bool) : List (Bool × Bool) :=
  if env.ackThrows 0 then [(success, true), (false, env.ackThrows 1)]
  else [(success, false)]

/-- An exception raised before any acknowledgment: the outer `catch`
makes the single failure acknowledgment, whose own rejection is only
logged. -/
def ackFromCatch (env : CmdEnv) : List (Bool × Bool) :=
  [(false, env.ackThrows 0)]

/-- The body of `processCommands` for one command with `status =
pending`: the `switch` over `command_type` wrapped in
`try ... catch (ack failure) catch (log)`. -/
def processPendingCommand (env : CmdEnv) (c : AgentCommand) : CmdOutcome :=
  match c.command_type with
  | .ping =>
    if env.sendPongThrows then ⟨ackFromCatch env, true, false⟩
    else ⟨[], true, false⟩
  | .scan_now =>
    if env.workThrows then ⟨ackFromCatch env, false, false⟩
    else ⟨ackInTry env true, false, false⟩
  | .scan_segment =>
    if ¬ env.payloadOk then ⟨ackInTry env false, false, false⟩
    else if ¬ env.segmentFound then ⟨ackInTry env false, false, false⟩
    else if env.segmentScanning then ⟨ackInTry env false, false, false⟩
    else if env.workThrows then ⟨ackFromCatch env, false, false⟩
    else ⟨ackInTry env true, false, false⟩
  | .restart =>
    if env.ackThrows 0 then ⟨[(true, true), (false, env.ackThrows 1)], false, false⟩
    else ⟨[(true, false)], false, true⟩
  | .upgrade =>
    if ¬ env.payloadOk then ⟨ackInTry env false, false, false⟩
    else if ¬ env.enableAutoUpgrade then ⟨ackInTry env true, false, false⟩
    else if ¬ env.policyAllows then ⟨ackInTry env true, false, false⟩
    else if env.ackThrows 0 then
      ⟨[(true, true), (false, env.ackThrows 1)], false, false⟩
    else if env.upgradeThrows then
      ⟨[(true, false), (false, env.ackThrows 1)], false, false⟩
    else ⟨[(true, false)], false, false⟩
  | .update_config => ⟨ackInTry env true, false, false⟩
  | .unknown => ⟨ackInTry env false, false, false⟩

/-- `processCommands` for one command: non-pending commands are skipped
(`continue`) before any processing. -/
def processCommand (env : CmdEnv) (c : AgentCommand) : CmdOutcome :=
  if c.status = .pending then processPendingCommand env c
  else ⟨[], false, false⟩

/-- The whole `processCommands(commands)` loop: commands are processed in
order; a successful `restart` exits the process and later commands are
never reached.  Returns the acknowledgment calls per command id. -/
def processCommandList (env : AgentCommand → CmdEnv) :
    List AgentCommand → List (Nat × List (Bool × Bool))
  | [] => []
  | c :: rest =>
    let o := processCommand (env c) c
    if o.exited then [(c.id, o.acks)]
    else (c.id, o.acks) :: processCommandList env rest

/-! ## JavaScript 32-bit arithmetic and CIDR expansion
(`parseCidr` / `expandCidr` in `src/src/utils/ip-utils.ts`)

JavaScript bitwise operators work on 32-bit integers: operands go through
`ToInt32`/`ToUint32` (wrap modulo `2^32`, signed or unsigned view), shifts
take the count modulo 32, and `>>> 0` reinterprets as unsigned.  These are
modelled explicitly on `Int`/`Nat`. -/

/-- `ToInt32`: wrap into `[-2^31, 2^31)`. -/
def toInt32 (n : Int) : Int := (n + 2147483648) % 4294967296 - 2147483648

/-- `ToUint32` (`n >>> 0`): wrap into `[0, 2^32)`, as a `Nat`. -/
def u32 (n : Int) : Nat := (n % 4294967296).toNat

/-- `a << b`. -/
def jsShl (a : Int) (b : Nat) : Int := toInt32 (toInt32 a * 2 ^ (b % 32))

/-- `a & b`. -/
def jsAnd (a b : Int) : Int := toInt32 (Int.ofNat (u32 a &&& u32 b))

/-- `a | b`. -/
def jsOr (a b : Int) : Int := toInt32 (Int.ofNat (u32 a ||| u32 b))

/-- `~a`. -/
def jsNot (a : Int) : Int := -(toInt32 a + 1)

/-- `numToIp(num)`: dotted-quad rendering of an unsigned 32-bit value. -/
def numToIp (num : Nat) : String :=
  toString ((num >>> 24) &&& 255) ++ "." ++ toString ((num >>> 16) &&& 255)
    ++ "." ++ toString ((num >>> 8) &&& 255) ++ "." ++ toString (num &&& 255)

/-- A CIDR after the `split('/')` / `split('.')` / `parseInt` steps: the
four octets and the numeric prefix length. -/
structure Cidr where
  a : Nat
  b : Nat
  c : Nat
  d : Nat
  prefixLen : Nat
deriving DecidableEq, Repr

/-- `parseCidr(cidr)` from `ip-utils.ts` with JavaScript arithmetic:
validate, compute `ipNum`, `mask`, network and broadcast addresses with
32-bit operators, and emit the loop from `start` to `end` (skipping
network/broadcast only below a /31). -/
def parseCidr (cidr : Cidr) : Except String (List String) :=
  if cidr.prefixLen > 32 then
    Except.error "Invalid CIDR prefix"
  else if cidr.a > 255 ∨ cidr.b > 255 ∨ cidr.c > 255 ∨ cidr.d > 255 then
    Except.error "Invalid IP address"
  else
    let ipNum := jsOr (jsOr (jsOr (jsShl (cidr.a : Int) 24)
      (jsShl (cidr.b : Int) 16)) (jsShl (cidr.c : Int) 8)) (cidr.d : Int)
    let mask := jsNot (jsShl 1 (32 - cidr.prefixLen) - 1)
    let networkAddr := jsAnd ipNum mask
    let broadcastAddr := jsOr networkAddr (jsNot mask)
    let start := if cidr.prefixLen ≥ 31 then networkAddr
      else networkAddr + 1
    let finish := if cidr.prefixLen ≥ 31 then broadcastAddr
      else broadcastAddr - 1
    Except.ok ((List.range (finish - start + 1).toNat).map
      fun (k : Nat) => numToIp (u32 (start + (k : Int))))

/-- `expandCidr(cidr)`: delegates to `parseCidr`. -/
def expandCidr (cidr : Cidr) : Except String (List String) :=
  parseCidr cidr

/-- The claim's specification of the result ("the list of usable
addresses excluding the network address and the broadcast address"):
every address of the block except the lowest (network) and highest
(broadcast), in ascending order.  This definition follows the claim's
words, to be compared with `parseCidr`. -/
def usableAddresses (cidr : Cidr) : List String :=
  let ipNum := cidr.a * 16777216 + cidr.b * 65536 + cidr.c * 256 + cidr.d
  let network := ipNum - ipNum % 2 ^ (32 - cidr.prefixLen)
  (List.range (2 ^ (32 - cidr.prefixLen) - 2)).map
    fun k => numToIp (network + 1 + k)

/-- Concrete environment: ping fails, only port 443 accepts. -/
def probeEnv443 : ProbeEnv :=
  { ping := ⟨.offline, none⟩,
    tcp := fun p =>
      if p = 443 then .result .online (some 7) else .result .offline none }

/-- Concrete environment: ping fails and every TCP connect times out. -/
def probeEnvAllFail : ProbeEnv :=
  { ping := ⟨.offline, none⟩, tcp := fun _ => .throws }

/-- Concrete tracking state for the C1 witness: one device previously
reported online with failure count 0. -/
def c1State : TrackState :=
  { failureCounts := [("192.168.1.10", 0)],
    lastKnownStatus := [("192.168.1.10", .online)] }

/-- Devices and probe oracle exhibiting the pruning gap: `10.0.0.7` is
first observed `offline` (so it enters `lastKnownStatus` but never
`deviceFailureCounts`), then disappears from the device set. -/
def c6DevA : DeviceInfo :=
  { id := "10.0.0.7", name := "a", ip := "10.0.0.7", mac := none,
    status := .unknown, responseTime := none, lastCheck := none }

def c6DevB : DeviceInfo :=
  { id := "10.0.0.8", name := "b", ip := "10.0.0.8", mac := none,
    status := .unknown, responseTime := none, lastCheck := none }

def c6Probe : String → Status :=
  fun ip => if ip = "10.0.0.7" then .offline else .online

/-- Tracking state after the first status-check cycle over both devices. -/
def c6AfterCycle1 : TrackState :=
  statusCheckCycle 2 [c6DevA, c6DevB] c6Probe ⟨[], []⟩

/-- Tracking state after the second cycle, in which `10.0.0.7` is absent
from the device set. -/
def c6AfterCycle2 : TrackState :=
  statusCheckCycle 2 [c6DevB] c6Probe c6AfterCycle1

/-- Concrete prior table entry and discovery record for the C9 witness. -/
def c9Prior : DeviceInfo :=
  { id := "10.0.0.1", name := "old-name", ip := "10.0.0.1",
    mac := none, status := .online, responseTime := some 5,
    lastCheck := some "2026-01-01T00:00:00Z" }

def c9Record : DiscoveredDevice :=
  { ip_address := "10.0.0.1", hostname := some "new-host",
    mac_address := some "AA:BB:CC:DD:EE:FF", discovery_method := "arp" }

/-- Records with the same IP but conflicting hostnames: first writer
wins, so merge order matters. -/
def c2DevA : DiscoveredDevice :=
  { ip_address := "192.168.1.50", hostname := some "alpha",
    discovery_method := "arp" }

def c2DevB : DiscoveredDevice :=
  { ip_address := "192.168.1.50", hostname := some "beta",
    discovery_method := "mdns" }

/-- Records with distinct IPs and duplicate-free collections for the C2
witness. -/
def c2DevC : DiscoveredDevice :=
  { ip_address := "10.1.1.1", hostname := some "gamma",
    os_hints := some ["Linux"], discovery_method := "arp" }

def c2DevD : DiscoveredDevice :=
  { ip_address := "10.1.1.2", mac_address := some "AA:BB:CC:00:11:22",
    discovery_method := "mdns" }

/-- Environment in which the first `acknowledgeCommand` call rejects and
the second succeeds. -/
def c3ThrowEnv : CmdEnv :=
  { sendPongThrows := false, workThrows := false,
    ackThrows := fun n => n == 0,
    payloadOk := true, segmentFound := true, segmentScanning := false,
    enableAutoUpgrade := true, policyAllows := true, upgradeThrows := false }

def c3UpdateCmd : AgentCommand :=
  { id := 42, command_type := .update_config, status := .pending }

/-- Environment in which every awaited call succeeds. -/
def c3OkEnv : CmdEnv :=
  { sendPongThrows := false, workThrows := false,
    ackThrows := fun _ => false,
    payloadOk := true, segmentFound := true, segmentScanning := false,
    enableAutoUpgrade := true, policyAllows := true, upgradeThrows := false }

def c3ScanCmd : AgentCommand :=
  { id := 7, command_type := .scan_now, status := .pending }

def c3DoneCmd : AgentCommand :=
  { id := 8, command_type := .scan_now, status := .completed }

/-- A `portCheck` that produced a value produced an `online` value. -/
theorem portCheck_eq_some {env : ProbeEnv} {port : Nat} {name : String}
    {r : ProbeResult} (h : portCheck env port name = some r) :
    r.status = .online ∧ r.method = name := by
  unfold portCheck at h
  cases htcp : env.tcp port with
  | throws => rw [htcp] at h; exact absurd h (by simp)
  | result s rt =>
    rw [htcp] at h
    by_cases hs : s = .online
    · simp [hs] at h
      subst h
      exact ⟨rfl, rfl⟩
    · simp [hs] at h

theorem alookup_aset_self (k : String) (v : α) (m : List (String × α)) :
    alookup k (aset k v m) = some v := by
  induction m with
  | nil => simp [aset, alookup]
  | cons p rest ih =>
    by_cases h : p.1 = k
    · simp [aset, h, alookup]
    · simp [aset, h, alookup, ih]

theorem alookup_aset_ne (k k' : String) (v : α) (m : List (String × α))
    (h : k' ≠ k) : alookup k' (aset k v m) = alookup k' m := by
  induction m with
  | nil => simp [aset, alookup, Ne.symm h]
  | cons p rest ih =>
    by_cases hp : p.1 = k
    · rw [show (p :: rest) = ((k, p.2) :: rest) by cases p; cases hp; rfl]
      simp [aset, alookup, Ne.symm h]
    · simp [aset, hp, alookup, ih]

/-- If every entry with key `k` fails the filter, `k` disappears. -/
theorem alookup_filter_none (k : String) (p : String × α → Bool)
    (m : List (String × α)) (h : ∀ v, p (k, v) = false) :
    alookup k (m.filter p) = none := by
  induction m with
  | nil => simp
  | cons q rest ih =>
    by_cases hq : q.1 = k
    · have : p q = false := by
        have := h q.2
        rwa [show (k, q.2) = q by cases q; cases hq; rfl] at this
      simp [List.filter, this, ih]
    · cases hpq : p q
      · simp [List.filter, hpq, ih]
      · simp [List.filter, hpq, alookup, hq, ih]

/-- If every entry with key `k` passes the filter, the lookup of `k` is
unchanged by filtering. -/
theorem alookup_filter_eq (k : String) (p : String × α → Bool)
    (m : List (String × α)) (h : ∀ v, p (k, v) = true) :
    alookup k (m.filter p) = alookup k m := by
  induction m with
  | nil => simp
  | cons q rest ih =>
    by_cases hq : q.1 = k
    · have : p q = true := by
        have := h q.2
        rwa [show (k, q.2) = q by cases q; cases hq; rfl] at this
      simp [List.filter, this, alookup, hq, ih]
    · cases hpq : p q
      · simp [List.filter, hpq, alookup, hq, ih]
      · simp [List.filter, hpq, alookup, hq, ih]

/-- Suppression step: raw `offline` after reported `online` with the
failure count below the threshold increments the count and reports
`online`. -/
theorem applyHysteresis_offline_suppress (threshold : Nat) (st : TrackState)
    (ip : String) (hprev : alookup ip st.lastKnownStatus = some .online)
    (hlt : (alookup ip st.failureCounts).getD 0 < threshold) :
    applyHysteresis threshold st ip .offline =
      ({ failureCounts :=
           aset ip ((alookup ip st.failureCounts).getD 0 + 1) st.failureCounts,
         lastKnownStatus := aset ip .online st.lastKnownStatus }, .online) := by
  simp [applyHysteresis, hprev, hlt]

/-- Flip step: raw `offline` after reported `online` with the failure
count at (or beyond) the threshold reports `offline` and leaves the count
alone. -/
theorem applyHysteresis_offline_flip (threshold : Nat) (st : TrackState)
    (ip : String) (hprev : alookup ip st.lastKnownStatus = some .online)
    (hge : ¬ (alookup ip st.failureCounts).getD 0 < threshold) :
    applyHysteresis threshold st ip .offline =
      ({ failureCounts := st.failureCounts,
         lastKnownStatus := aset ip .offline st.lastKnownStatus }, .offline) := by
  simp [applyHysteresis, hprev, hge]

/-- Reset step: a raw `online` observation resets the failure count to 0
and reports `online` regardless of the previous state. -/
theorem applyHysteresis_online (threshold : Nat) (st : TrackState)
    (ip : String) :
    applyHysteresis threshold st ip .online =
      ({ failureCounts := aset ip 0 st.failureCounts,
         lastKnownStatus := aset ip .online st.lastKnownStatus }, .online) := by
  simp [applyHysteresis]

theorem jsSetUnion_go_mem [DecidableEq α] (y : α) (xs : List α) :
    ∀ seen, y ∈ jsSetUnion.go seen xs ↔ y ∈ xs ∧ y ∉ seen := by
  induction xs with
  | nil => intro seen; simp [jsSetUnion.go]
  | cons x rest ih =>
    intro seen
    by_cases hx : x ∈ seen
    · rw [jsSetUnion.go, if_pos hx, ih seen]
      constructor
      · rintro ⟨h1, h2⟩
        exact ⟨List.mem_cons_of_mem x h1, h2⟩
      · rintro ⟨h1, h2⟩
        rcases List.mem_cons.mp h1 with h1 | h1
        · exact absurd (h1 ▸ hx) h2
        · exact ⟨h1, h2⟩
    · rw [jsSetUnion.go, if_neg hx]
      simp only [List.mem_cons, ih (x :: seen)]
      constructor
      · rintro (h | ⟨h1, h2⟩)
        · exact ⟨Or.inl h, fun hs => hx (h ▸ hs)⟩
        · exact ⟨Or.inr h1, fun hs => h2 (Or.inr hs)⟩
      · rintro ⟨h1 | h1, h2⟩
        · exact Or.inl h1
        · by_cases hyx : y = x
          · exact Or.inl hyx
          · exact Or.inr ⟨h1, fun hs => hs.elim hyx h2⟩

theorem jsSetUnion_go_nodup [DecidableEq α] (xs : List α) :
    ∀ seen : List α, (jsSetUnion.go seen xs).Nodup := by
  induction xs with
  | nil => intro seen; simp [jsSetUnion.go]
  | cons x rest ih =>
    intro seen
    by_cases hx : x ∈ seen
    · rw [jsSetUnion.go, if_pos hx]
      exact ih seen
    · rw [jsSetUnion.go, if_neg hx]
      refine List.nodup_cons.mpr ⟨fun hmem => ?_, ih (x :: seen)⟩
      exact ((jsSetUnion_go_mem x rest (x :: seen)).mp hmem).2
        (List.mem_cons_self x seen)

theorem jsSetUnion_go_all_seen [DecidableEq α] (m : List α) :
    ∀ seen : List α, (∀ x ∈ m, x ∈ seen) → jsSetUnion.go seen m = [] := by
  induction m with
  | nil => intro seen _; rfl
  | cons x rest ih =>
    intro seen h
    rw [jsSetUnion.go, if_pos (h x (List.mem_cons_self x rest))]
    exact ih seen fun y hy => h y (List.mem_cons_of_mem x hy)

theorem jsSetUnion_go_eq_self [DecidableEq α] (l : List α) :
    ∀ (seen m : List α), l.Nodup → (∀ x ∈ l, x ∉ seen) →
      (∀ x ∈ m, x ∈ l ∨ x ∈ seen) → jsSetUnion.go seen (l ++ m) = l := by
  induction l with
  | nil =>
    intro seen m _ _ hm
    exact jsSetUnion_go_all_seen m seen fun x hx =>
      ((hm x hx).resolve_left (by simp))
  | cons x l ih =>
    intro seen m hnd hseen hm
    rw [List.cons_append, jsSetUnion.go,
      if_neg (hseen x (List.mem_cons_self x l))]
    congr 1
    refine ih (x :: seen) m (List.nodup_cons.mp hnd).2 ?_ ?_
    · intro y hy hmem
      rcases List.mem_cons.mp hmem with h | h
      · exact (List.nodup_cons.mp hnd).1 (h ▸ hy)
      · exact hseen y (List.mem_cons_of_mem x hy) h
    · intro y hy
      rcases hm y hy with h | h
      · rcases List.mem_cons.mp h with h | h
        · exact Or.inr (h ▸ List.mem_cons_self x seen)
        · exact Or.inl h
      · exact Or.inr (List.mem_cons_of_mem x h)

theorem jsSetUnion_mem [DecidableEq α] (y : α) (l m : List α) :
    y ∈ jsSetUnion [] l m ↔ y ∈ l ∨ y ∈ m := by
  rw [jsSetUnion, jsSetUnion_go_mem]
  simp

theorem jsSetUnion_nodup [DecidableEq α] (l m : List α) :
    (jsSetUnion [] l m).Nodup :=
  jsSetUnion_go_nodup (l ++ m) []

theorem jsSetUnion_eq_self [DecidableEq α] (l m : List α) (hl : l.Nodup)
    (hm : ∀ x ∈ m, x ∈ l) : jsSetUnion [] l m = l := by
  rw [jsSetUnion]
  exact jsSetUnion_go_eq_self l [] m hl (by simp)
    (fun x hx => Or.inl (hm x hx))

theorem optListNonempty_some_iff (l : List α) :
    optListNonempty (some l) = true ↔ l ≠ [] := by
  cases l <;> simp [optListNonempty]

theorem optListNonempty_eq_some {o : Option (List α)}
    (h : optListNonempty o = true) : o = some (o.getD []) := by
  cases o with
  | none => simp [optListNonempty] at h
  | some l => rfl

theorem fillStep_mono {ef : Option String} (rf : Option String)
    (h : strTruthy ef = true) : fillStep ef rf = ef := by
  simp [fillStep, h]

theorem fillStep_truthy_of_self {ef rf : Option String}
    (h : strTruthy rf = true) : strTruthy (fillStep ef rf) = true := by
  unfold fillStep
  cases he : strTruthy ef
  · simp [h, he]
  · simp [h, he]

theorem fillStep_truthy_mono {ef : Option String} (rf : Option String)
    (h : strTruthy ef = true) : strTruthy (fillStep ef rf) = true := by
  rw [fillStep_mono rf h]; exact h

theorem fillStep_absorb {ef rf : Option String}
    (h : strTruthy rf = true → strTruthy ef = true) : fillStep ef rf = ef := by
  unfold fillStep
  cases hr : strTruthy rf
  · simp
  · simp [h hr]

theorem fillStepO_isSome_of_self {ef rf : Option β}
    (h : rf.isSome = true) : (fillStepO ef rf).isSome = true := by
  unfold fillStepO
  cases he : ef.isSome
  · simp [h, he]
  · simp [h, he]

theorem fillStepO_isSome_mono {ef : Option β} (rf : Option β)
    (h : ef.isSome = true) : (fillStepO ef rf).isSome = true := by
  unfold fillStepO
  cases hr : rf.isSome <;> simp [h, hr]

theorem fillStepO_absorb {ef rf : Option β}
    (h : rf.isSome = true → ef.isSome = true) : fillStepO ef rf = ef := by
  unfold fillStepO
  cases hr : rf.isSome
  · simp
  · simp [h hr]

theorem unionStep_nodup [DecidableEq α] {ec : Option (List α)}
    (rc : Option (List α)) (h : (ec.getD []).Nodup) :
    ((unionStep ec rc).getD []).Nodup := by
  unfold unionStep
  split
  · exact jsSetUnion_nodup _ _
  · exact h

theorem unionStep_nonempty_of_self [DecidableEq α]
    {ec rc : Option (List α)} (h : optListNonempty rc = true) :
    optListNonempty (unionStep ec rc) = true ∧
      ∀ x ∈ rc.getD [], x ∈ (unionStep ec rc).getD [] := by
  unfold unionStep
  rw [if_pos h]
  constructor
  · rw [optListNonempty_some_iff]
    intro hempty
    obtain ⟨x, hx⟩ := List.exists_mem_of_ne_nil _
      ((optListNonempty_some_iff _).mp (optListNonempty_eq_some h ▸ h))
    have : x ∈ jsSetUnion [] (ec.getD []) (rc.getD []) :=
      (jsSetUnion_mem x _ _).mpr (Or.inr hx)
    rw [hempty] at this
    exact absurd this (List.not_mem_nil x)
  · intro x hx
    exact (jsSetUnion_mem x _ _).mpr (Or.inr hx)

theorem unionStep_mono [DecidableEq α] {ec : Option (List α)}
    (rc : Option (List α)) (hne : optListNonempty ec = true) :
    optListNonempty (unionStep ec rc) = true ∧
      ∀ x ∈ ec.getD [], x ∈ (unionStep ec rc).getD [] := by
  unfold unionStep
  split
  · constructor
    · rw [optListNonempty_some_iff]
      intro hempty
      obtain ⟨x, hxm⟩ := List.exists_mem_of_ne_nil _
        ((optListNonempty_some_iff _).mp (optListNonempty_eq_some hne ▸ hne))
      have : x ∈ jsSetUnion [] (ec.getD []) (rc.getD []) :=
        (jsSetUnion_mem x _ _).mpr (Or.inl hxm)
      rw [hempty] at this
      exact absurd this (List.not_mem_nil x)
    · intro x hxm
      exact (jsSetUnion_mem x _ _).mpr (Or.inl hxm)
  · exact ⟨hne, fun x hxm => hxm⟩

theorem unionStep_absorb [DecidableEq α] {ec rc : Option (List α)}
    (hnd : (ec.getD []).Nodup)
    (h : optListNonempty rc = true → optListNonempty ec = true ∧
      ∀ x ∈ rc.getD [], x ∈ ec.getD []) : unionStep ec rc = ec := by
  cases hr : optListNonempty rc
  · simp [unionStep, hr]
  · obtain ⟨hne, hsub⟩ := h hr
    unfold unionStep
    rw [hr, if_pos rfl, jsSetUnion_eq_self _ _ hnd hsub]
    exact (optListNonempty_eq_some hne).symm

theorem canAbsorb_refl (r : DiscoveredDevice) : canAbsorb r r := by
  refine ⟨fun h => h, fun h => h, fun h => h, fun h => h, fun h => h,
    fun h => h, ?_, ?_, ?_⟩ <;> exact fun h => ⟨h, fun x hx => hx⟩

theorem combineDevice_absorb (E r : DiscoveredDevice)
    (hnd : collectionsNodup E) (h : canAbsorb E r) :
    combineDevice E r = E := by
  obtain ⟨h1, h2, h3, h4, h5, h6, h7, h8, h9⟩ := h
  obtain ⟨n1, n2, n3⟩ := hnd
  unfold combineDevice
  rw [fillStep_absorb h1, fillStep_absorb h2, fillStep_absorb h3,
    fillStep_absorb h4, fillStepO_absorb h5, fillStepO_absorb h6,
    unionStep_absorb n1 h7, unionStep_absorb n2 h8, unionStep_absorb n3 h9]

theorem combineDevice_nodup (E r : DiscoveredDevice)
    (h : collectionsNodup E) : collectionsNodup (combineDevice E r) :=
  ⟨unionStep_nodup _ h.1, unionStep_nodup _ h.2.1, unionStep_nodup _ h.2.2⟩

theorem canAbsorb_combine_self (E r : DiscoveredDevice) :
    canAbsorb (combineDevice E r) r :=
  ⟨fun h => fillStep_truthy_of_self h, fun h => fillStep_truthy_of_self h,
    fun h => fillStep_truthy_of_self h, fun h => fillStep_truthy_of_self h,
    fun h => fillStepO_isSome_of_self h, fun h => fillStepO_isSome_of_self h,
    fun h => unionStep_nonempty_of_self h,
    fun h => unionStep_nonempty_of_self h,
    fun h => unionStep_nonempty_of_self h⟩

theorem canAbsorb_combine_mono (E r' r : DiscoveredDevice)
    (h : canAbsorb E r) : canAbsorb (combineDevice E r') r := by
  obtain ⟨h1, h2, h3, h4, h5, h6, h7, h8, h9⟩ := h
  refine ⟨fun hh => fillStep_truthy_mono _ (h1 hh),
    fun hh => fillStep_truthy_mono _ (h2 hh),
    fun hh => fillStep_truthy_mono _ (h3 hh),
    fun hh => fillStep_truthy_mono _ (h4 hh),
    fun hh => fillStepO_isSome_mono _ (h5 hh),
    fun hh => fillStepO_isSome_mono _ (h6 hh), ?_, ?_, ?_⟩
  · intro hh
    obtain ⟨hne, hsub⟩ := h7 hh
    exact ⟨(unionStep_mono r'.os_hints hne).1,
      fun x hx => (unionStep_mono r'.os_hints hne).2 x (hsub x hx)⟩
  · intro hh
    obtain ⟨hne, hsub⟩ := h8 hh
    exact ⟨(unionStep_mono r'.open_ports hne).1,
      fun x hx => (unionStep_mono r'.open_ports hne).2 x (hsub x hx)⟩
  · intro hh
    obtain ⟨hne, hsub⟩ := h9 hh
    exact ⟨(unionStep_mono r'.services hne).1,
      fun x hx => (unionStep_mono r'.services hne).2 x (hsub x hx)⟩

theorem foldCombine_inv (rs : List DiscoveredDevice) :
    ∀ E, collectionsNodup E →
      collectionsNodup (foldCombine E rs) ∧
      (∀ r', canAbsorb E r' → canAbsorb (foldCombine E rs) r') ∧
      (∀ r ∈ rs, canAbsorb (foldCombine E rs) r) := by
  induction rs with
  | nil => intro E hE; exact ⟨hE, fun _ h => h, by simp⟩
  | cons r rest ih =>
    intro E hE
    obtain ⟨ndA, monoA, allA⟩ := ih (combineDevice E r)
      (combineDevice_nodup E r hE)
    refine ⟨ndA, fun r' h => monoA r' (canAbsorb_combine_mono E r r' h), ?_⟩
    intro q hq
    rcases List.mem_cons.mp hq with rfl | hq
    · exact monoA q (canAbsorb_combine_self E q)
    · exact allA q hq

theorem foldCombine_absorb (rs : List DiscoveredDevice) :
    ∀ E, collectionsNodup E → (∀ r ∈ rs, canAbsorb E r) →
      foldCombine E rs = E := by
  induction rs with
  | nil => intro E _ _; rfl
  | cons r rest ih =>
    intro E hnd h
    show foldCombine (combineDevice E r) rest = E
    rw [combineDevice_absorb E r hnd (h r (List.mem_cons_self r rest))]
    exact ih E hnd fun q hq => h q (List.mem_cons_of_mem r hq)

theorem mergeRun_some (ds : List DiscoveredDevice) :
    ∀ e, mergeRun (some e) ds = some (foldCombine e ds) := by
  induction ds with
  | nil => intro e; rfl
  | cons d rest ih => intro e; exact ih (combineDevice e d)

theorem mergeRun_append (l1 l2 : List DiscoveredDevice) :
    ∀ acc, mergeRun acc (l1 ++ l2) = mergeRun (mergeRun acc l1) l2 := by
  induction l1 with
  | nil => intro acc; cases acc <;> rfl
  | cons d rest ih =>
    intro acc
    cases acc with
    | none => exact ih (some d)
    | some e => exact ih (some (combineDevice e d))

theorem ip_combine (e d : DiscoveredDevice) :
    (combineDevice e d).ip_address = e.ip_address := rfl

theorem ip_replace (d e : DiscoveredDevice) :
    (if e.ip_address = d.ip_address then combineDevice e d
      else e).ip_address = e.ip_address := by
  split <;> rfl

theorem findByIp_nil (ip : String) : findByIp ip [] = none := rfl

theorem findByIp_cons (ip : String) (x : DiscoveredDevice)
    (rest : List DiscoveredDevice) :
    findByIp ip (x :: rest)
      = if x.ip_address = ip then some x else findByIp ip rest := by
  unfold findByIp
  by_cases h : x.ip_address = ip
  · rw [if_pos h, List.find?_cons_of_pos _ (by simp [h])]
  · rw [if_neg h, List.find?_cons_of_neg _ (by simp [h])]

theorem findByIp_append (ip : String) (l1 l2 : List DiscoveredDevice) :
    findByIp ip (l1 ++ l2) = (findByIp ip l1).or (findByIp ip l2) := by
  unfold findByIp
  exact List.find?_append

theorem findByIp_some_ip {ip : String} {l : List DiscoveredDevice}
    {e : DiscoveredDevice} (h : findByIp ip l = some e) :
    e.ip_address = ip := by
  unfold findByIp at h
  have := List.find?_some h
  simpa using this

theorem findByIp_map_replace (ip : String) (d : DiscoveredDevice)
    (acc : List DiscoveredDevice) :
    findByIp ip (acc.map fun e =>
        if e.ip_address = d.ip_address then combineDevice e d else e)
      = (findByIp ip acc).map fun e =>
          if e.ip_address = d.ip_address then combineDevice e d else e := by
  induction acc with
  | nil => rfl
  | cons x rest ih =>
    rw [List.map_cons, findByIp_cons, findByIp_cons, ip_replace]
    by_cases h : x.ip_address = ip
    · rw [if_pos h, if_pos h]
      rfl
    · rw [if_neg h, if_neg h, ih]

theorem findByIp_isSome_of_any {acc : List DiscoveredDevice}
    {d : DiscoveredDevice}
    (hany : acc.any (fun e => e.ip_address = d.ip_address) = true) :
    ∃ e, findByIp d.ip_address acc = some e := by
  induction acc with
  | nil => simp at hany
  | cons x rest ih =>
    rw [findByIp_cons]
    by_cases h : x.ip_address = d.ip_address
    · exact ⟨x, if_pos h⟩
    · rw [if_neg h]
      rw [List.any_cons] at hany
      simp only [h, decide_eq_true_eq] at hany
      exact ih (by simpa using hany)

theorem any_of_findByIp {acc : List DiscoveredDevice}
    {d E : DiscoveredDevice}
    (h : findByIp d.ip_address acc = some E) :
    acc.any (fun e => e.ip_address = d.ip_address) = true := by
  induction acc with
  | nil => simp [findByIp_nil] at h
  | cons x rest ih =>
    rw [findByIp_cons] at h
    rw [List.any_cons]
    by_cases hx : x.ip_address = d.ip_address
    · simp [hx]
    · rw [if_neg hx] at h
      simp [ih h]

/-- The key lookup lemma: inserting one record changes only its own IP,
merging in place when present and appending when absent. -/
theorem findByIp_mergeInto (ip : String) (acc : List DiscoveredDevice)
    (d : DiscoveredDevice) :
    findByIp ip (mergeInto acc d) =
      if d.ip_address = ip then
        match findByIp ip acc with
        | some e => some (combineDevice e d)
        | none => some d
      else findByIp ip acc := by
  unfold mergeInto
  by_cases hany : acc.any (fun e => e.ip_address = d.ip_address) = true
  · rw [if_pos hany, findByIp_map_replace]
    by_cases hip : d.ip_address = ip
    · subst hip
      obtain ⟨e, he⟩ := findByIp_isSome_of_any hany
      rw [he, if_pos rfl]
      have heip : e.ip_address = d.ip_address := findByIp_some_ip he
      simp [heip]
    · rw [if_neg hip]
      cases hfind : findByIp ip acc with
      | none => rfl
      | some e =>
        have heip : e.ip_address = ip := findByIp_some_ip hfind
        have hne : ¬ (e.ip_address = d.ip_address) :=
          fun hc => hip (hc.symm.trans heip)
        simp [hne]
  · rw [if_neg hany, findByIp_append]
    by_cases hip : d.ip_address = ip
    · subst hip
      have hnone : findByIp d.ip_address acc = none := by
        cases hfind : findByIp d.ip_address acc with
        | none => rfl
        | some e => exact absurd (any_of_findByIp hfind) hany
      rw [hnone, findByIp_cons, if_pos rfl]
      simp
    · rw [findByIp_cons, if_neg hip, findByIp_nil, if_neg hip,
        Option.or_none]

/-- Lookup through a whole fold of insertions: only the records filtered
to this IP matter, merged sequentially. -/
theorem findByIp_foldl (ip : String) (ds : List DiscoveredDevice) :
    ∀ acc, findByIp ip (ds.foldl mergeInto acc)
      = mergeRun (findByIp ip acc)
          (ds.filter fun r => r.ip_address = ip) := by
  induction ds with
  | nil =>
    intro acc
    rw [List.foldl_nil, List.filter_nil]
    cases hfind : findByIp ip acc <;> rfl
  | cons d rest ih =>
    intro acc
    rw [List.foldl_cons, ih (mergeInto acc d), findByIp_mergeInto]
    by_cases hip : d.ip_address = ip
    · rw [if_pos hip, List.filter_cons_of_pos (by simp [hip])]
      cases hfind : findByIp ip acc <;> rfl
    · rw [if_neg hip, List.filter_cons_of_neg (by simp [hip])]

/-- Per-IP description of a two-array merge. -/
theorem findByIp_mergeTwo (A B : List DiscoveredDevice) (ip : String) :
    findByIp ip (mergeDiscoveredDevices [A, B])
      = mergeRun none ((A.filter fun r => r.ip_address = ip)
          ++ (B.filter fun r => r.ip_address = ip)) := by
  show findByIp ip (B.foldl mergeInto (A.foldl mergeInto [])) = _
  rw [findByIp_foldl, findByIp_foldl, mergeRun_append]
  rfl

theorem mergeInto_ipsUnique (acc : List DiscoveredDevice)
    (d : DiscoveredDevice) (h : IpsUnique acc) :
    IpsUnique (mergeInto acc d) := by
  unfold mergeInto
  by_cases hany : acc.any (fun e => e.ip_address = d.ip_address) = true
  · rw [if_pos hany]
    refine List.Pairwise.map _ (fun a b hab => ?_) h
    rw [ip_replace, ip_replace]
    exact hab
  · rw [if_neg hany]
    rw [IpsUnique, List.pairwise_append]
    refine ⟨h, List.pairwise_singleton _ _, ?_⟩
    intro a ha b hb
    rw [List.mem_singleton] at hb
    subst hb
    intro heq
    exact hany (List.any_eq_true.mpr ⟨a, ha, by simp [heq]⟩)

theorem foldl_mergeInto_ipsUnique (ds : List DiscoveredDevice) :
    ∀ acc, IpsUnique acc → IpsUnique (ds.foldl mergeInto acc) := by
  induction ds with
  | nil => intro acc h; exact h
  | cons d rest ih =>
    intro acc h
    exact ih (mergeInto acc d) (mergeInto_ipsUnique acc d h)

theorem findByIp_unique {l : List DiscoveredDevice} {ip : String}
    {E e : DiscoveredDevice} (hu : IpsUnique l)
    (hfind : findByIp ip l = some E) (he : e ∈ l)
    (hip : e.ip_address = ip) : e = E := by
  induction l with
  | nil => simp [findByIp_nil] at hfind
  | cons x rest ih =>
    rw [findByIp_cons] at hfind
    rcases List.mem_cons.mp he with rfl | he
    · rw [if_pos hip] at hfind
      exact Option.some.inj hfind
    · by_cases hx : x.ip_address = ip
      · exfalso
        have := (List.pairwise_cons.mp hu).1 e he
        exact this (hx.trans hip.symm)
      · rw [if_neg hx] at hfind
        exact ih (List.pairwise_cons.mp hu).2 hfind he

/-- Inserting a record that the map already absorbs leaves the map
unchanged. -/
theorem mergeInto_fixed {M : List DiscoveredDevice} {a E : DiscoveredDevice}
    (hu : IpsUnique M) (hfind : findByIp a.ip_address M = some E)
    (habs : combineDevice E a = E) : mergeInto M a = M := by
  unfold mergeInto
  rw [if_pos (any_of_findByIp hfind)]
  have hmap : M.map (fun e =>
      if e.ip_address = a.ip_address then combineDevice e a else e)
      = M.map id := by
    refine List.map_congr_left fun e he => ?_
    by_cases heq : e.ip_address = a.ip_address
    · rw [if_pos heq, findByIp_unique hu hfind he heq, habs]
      rfl
    · rw [if_neg heq]
      rfl
  rw [hmap, List.map_id]

theorem foldl_mergeInto_fixed {M : List DiscoveredDevice}
    (l : List DiscoveredDevice) (h : ∀ a ∈ l, mergeInto M a = M) :
    l.foldl mergeInto M = M := by
  induction l with
  | nil => rfl
  | cons a rest ih =>
    rw [List.foldl_cons, h a (List.mem_cons_self a rest)]
    exact ih fun b hb => h b (List.mem_cons_of_mem a hb)

theorem toInt32_eq_self {z : Int} (h1 : -2147483648 ≤ z)
    (h2 : z < 2147483648) : toInt32 z = z := by
  unfold toInt32
  omega

theorem u32_toInt32 (z : Int) : u32 (toInt32 z) = u32 z := by
  unfold u32 toInt32
  omega

theorem u32_coe {n : Nat} (h : n < 4294967296) : u32 (n : Int) = n := by
  unfold u32
  omega

theorem u32_lt (z : Int) : u32 z < 4294967296 := by
  unfold u32
  omega

theorem toInt32_emod (z : Int) : toInt32 z % 4294967296 = z % 4294967296 := by
  unfold toInt32
  omega

theorem toInt32_coe_split (n : Nat) (h : n < 4294967296) :
    toInt32 (n : Int)
      = if n < 2147483648 then (n : Int) else (n : Int) - 4294967296 := by
  unfold toInt32
  split <;> omega

theorem testBit_two_pow_mul (e q i : Nat) :
    (2 ^ e * q).testBit i = (decide (i ≥ e) && q.testBit (i - e)) := by
  rw [show 2 ^ e * q = q <<< e by rw [Nat.shiftLeft_eq, Nat.mul_comm]]
  exact Nat.testBit_shiftLeft q

theorem testBit_lt_pow {x i n : Nat} (hx : x < 2 ^ n) (hn : n ≤ i) :
    x.testBit i = false :=
  Nat.testBit_lt_two_pow
    (lt_of_lt_of_le hx (Nat.pow_le_pow_right (by omega) hn))

/-- Clearing the low `e` bits of `x < 2^(m+e)` with the mask
`2^(m+e) - 2^e` rounds `x` down to a multiple of `2^e`. -/
theorem land_mask_high (x m e : Nat) (hx : x < 2 ^ (m + e)) :
    x &&& (2 ^ (m + e) - 2 ^ e) = 2 ^ e * (x / 2 ^ e) := by
  apply Nat.eq_of_testBit_eq
  intro i
  rw [Nat.testBit_land]
  rw [show 2 ^ (m + e) - 2 ^ e = 2 ^ e * (2 ^ m - 1) by
    have hp : (1 : Nat) ≤ 2 ^ m := Nat.one_le_two_pow
    have hadd : (2 : Nat) ^ (m + e) = 2 ^ m * 2 ^ e := by
      rw [pow_add]
    have hge : (2 : Nat) ^ e ≤ 2 ^ m * 2 ^ e :=
      Nat.le_mul_of_pos_left _ (by omega)
    rw [hadd]
    zify [hp, hge]
    ring]
  rw [testBit_two_pow_mul, testBit_two_pow_mul, Nat.testBit_two_pow_sub_one]
  rw [show x / 2 ^ e = x >>> e from (Nat.shiftRight_eq_div_pow x e).symm,
    Nat.testBit_shiftRight]
  by_cases hie : e ≤ i
  · rw [show e + (i - e) = i by omega]
    by_cases him : i - e < m
    · simp [hie, him, ge_iff_le]
    · have hfx : x.testBit i = false := testBit_lt_pow hx (by omega)
      simp [hie, him, hfx, ge_iff_le]
  · simp [hie, ge_iff_le]

/-- The bits of `2^e * q + m` for `m < 2^e`: low bits come from `m`,
high bits from `q`. -/
theorem testBit_mul_add (e q m : Nat) (hm : m < 2 ^ e) (i : Nat) :
    (2 ^ e * q + m).testBit i
      = if i < e then m.testBit i else q.testBit (i - e) := by
  by_cases hie : i < e
  · rw [if_pos hie, Nat.testBit_to_div_mod, Nat.testBit_to_div_mod]
    congr 1
    have he : (2 : Nat) ^ e = 2 ^ i * 2 ^ (e - i) := by
      rw [← pow_add]
      congr 1
      omega
    rw [he, Nat.mul_assoc, Nat.mul_add_div (Nat.pos_pow_of_pos i (by omega))]
    have heven : (2 : Nat) ^ (e - i) * q = 2 * (2 ^ (e - i - 1) * q) := by
      rw [← Nat.mul_assoc]
      congr 1
      rw [← pow_succ']
      congr 1
      omega
    rw [heven, Nat.add_comm, Nat.add_mul_mod_self_left]
  · rw [if_neg hie, Nat.testBit_to_div_mod, Nat.testBit_to_div_mod]
    congr 2
    have hsplit : (2 : Nat) ^ i = 2 ^ e * 2 ^ (i - e) := by
      rw [← pow_add]
      congr 1
      omega
    rw [hsplit, ← Nat.div_div_eq_div_mul,
      Nat.mul_add_div (Nat.pos_pow_of_pos e (by omega)),
      Nat.div_eq_of_lt hm, Nat.add_zero]

/-- Or-ing disjoint bit ranges is addition. -/
theorem lor_disjoint (e q m : Nat) (hm : m < 2 ^ e) :
    (2 ^ e * q) ||| m = 2 ^ e * q + m := by
  apply Nat.eq_of_testBit_eq
  intro i
  rw [Nat.testBit_lor, testBit_two_pow_mul, testBit_mul_add e q m hm]
  by_cases hie : i < e
  · have hge : ¬ (e ≤ i) := by omega
    simp [hie, hge, ge_iff_le]
  · have hge : e ≤ i := by omega
    have hmf : m.testBit i = false := testBit_lt_pow hm (by omega)
    simp [hie, hge, hmf, ge_iff_le]

theorem lor_lt_u32 (x y : Nat) (hx : x < 4294967296)
    (hy : y < 4294967296) : x ||| y < 4294967296 := by
  have e32 : (2 : Nat) ^ 32 = 4294967296 := by norm_num
  have h := Nat.bitwise_lt_two_pow (f := or) (x := x) (y := y)
    (by rw [e32]; exact hx) (by rw [e32]; exact hy)
  rw [e32] at h
  exact h

theorem land_lt_u32 (x y : Nat) (hx : x < 4294967296)
    (hy : y < 4294967296) : x &&& y < 4294967296 := by
  have e32 : (2 : Nat) ^ 32 = 4294967296 := by norm_num
  have h := Nat.bitwise_lt_two_pow (f := and) (x := x) (y := y)
    (by rw [e32]; exact hx) (by rw [e32]; exact hy)
  rw [e32] at h
  exact h

theorem u32_jsOr (x y : Int) : u32 (jsOr x y) = u32 x ||| u32 y := by
  unfold jsOr
  rw [u32_toInt32]
  exact u32_coe (lor_lt_u32 _ _ (u32_lt x) (u32_lt y))

theorem u32_jsAnd (x y : Int) :
    u32 (jsAnd x y) = u32 x &&& u32 y := by
  unfold jsAnd
  rw [u32_toInt32]
  exact u32_coe (land_lt_u32 _ _ (u32_lt x) (u32_lt y))

theorem u32_toInt32_add (x z : Int) : u32 (toInt32 x + z) = u32 (x + z) := by
  unfold u32 toInt32
  omega

theorem u32_jsShl_small (n s : Nat) (hs : s < 32) (h31 : n < 2147483648)
    (hlt : n * 2 ^ s < 4294967296) :
    u32 (jsShl (n : Int) s) = n * 2 ^ s := by
  unfold jsShl
  rw [Nat.mod_eq_of_lt hs,
    toInt32_eq_self (z := (n : Int)) (by omega) (by omega), u32_toInt32,
    show ((n : Int) * 2 ^ s) = ((n * 2 ^ s : Nat) : Int) by push_cast; ring]
  exact u32_coe hlt

/-- The value of `ipNum` for valid octets: the usual big-endian packing. -/
theorem u32_ipNum (a b c d : Nat) (ha : a ≤ 255) (hb : b ≤ 255)
    (hc : c ≤ 255) (hd : d ≤ 255) :
    u32 (jsOr (jsOr (jsOr (jsShl (a : Int) 24) (jsShl (b : Int) 16))
        (jsShl (c : Int) 8)) (d : Int))
      = a * 16777216 + b * 65536 + c * 256 + d := by
  rw [u32_jsOr, u32_jsOr, u32_jsOr,
    u32_jsShl_small a 24 (by omega) (by omega) (by norm_num; omega),
    u32_jsShl_small b 16 (by omega) (by omega) (by norm_num; omega),
    u32_jsShl_small c 8 (by omega) (by omega) (by norm_num; omega),
    u32_coe (show d < 4294967296 by omega)]
  rw [show a * 2 ^ 24 = 2 ^ 24 * a by ring,
    lor_disjoint 24 a (b * 2 ^ 16) (by norm_num; omega)]
  rw [show 2 ^ 24 * a + b * 2 ^ 16 = 2 ^ 16 * (a * 2 ^ 8 + b) by ring,
    lor_disjoint 16 (a * 2 ^ 8 + b) (c * 2 ^ 8) (by norm_num; omega)]
  rw [show 2 ^ 16 * (a * 2 ^ 8 + b) + c * 2 ^ 8
      = 2 ^ 8 * (a * 2 ^ 16 + b * 2 ^ 8 + c) by ring,
    lor_disjoint 8 (a * 2 ^ 16 + b * 2 ^ 8 + c) d (by norm_num; omega)]
  norm_num
  ring

/-- The value of the `mask` expression for a prefix length in `[1, 30]`:
the signed 32-bit value `-(2^(32-p))`. -/
theorem jsMask_val (p : Nat) (hp1 : 1 ≤ p) (hp30 : p ≤ 30) :
    jsNot (jsShl 1 (32 - p) - 1) = -((2 ^ (32 - p) : Nat) : Int) := by
  set e := 32 - p with he
  have he2 : 2 ≤ e := by omega
  have he31 : e ≤ 31 := by omega
  unfold jsShl jsNot
  rw [Nat.mod_eq_of_lt (by omega),
    toInt32_eq_self (show (-2147483648 : Int) ≤ 1 by omega)
      (show (1 : Int) < 2147483648 by omega)]
  by_cases hcase : e ≤ 30
  · have hppow : (2 : Nat) ^ e ≤ 2 ^ 30 := Nat.pow_le_pow_right (by omega) hcase
    have hppow2 : (2 : Nat) ^ 30 = 1073741824 := by norm_num
    have hlo : (1 : Nat) ≤ 2 ^ e := Nat.one_le_two_pow
    have hcast : ((1 : Int) * 2 ^ e) = ((2 ^ e : Nat) : Int) := by
      push_cast
      ring
    rw [hcast,
      toInt32_eq_self (z := ((2 ^ e : Nat) : Int)) (by omega) (by omega),
      toInt32_eq_self (z := ((2 ^ e : Nat) : Int) - 1) (by omega) (by omega)]
    ring
  · have he31eq : e = 31 := by omega
    rw [he31eq]
    norm_num [toInt32]

/-- Signed reinterpretation preserves windows that do not straddle the
sign boundary: for a network base `netU = E * q` with `E * K = 2^31`,
`netU` and `netU + (E - 1)` are on the same side of the boundary, so
their signed values differ by exactly `E - 1`. -/
theorem toInt32_same_window (netU E K q : Nat) (hq : netU = E * q)
    (hEK : E * K = 2147483648) (hE1 : 1 ≤ E)
    (hhi : netU + E ≤ 4294967296) :
    toInt32 ((netU + E - 1 : Nat) : Int)
      = toInt32 (netU : Int) + ((E - 1 : Nat) : Int) := by
  have hside : netU < 2147483648 → netU + E ≤ 2147483648 := by
    intro h
    have hqK : q < K := by
      apply Nat.lt_of_mul_lt_mul_left (a := E)
      rw [← hq, hEK]
      omega
    have hmul : E * (q + 1) ≤ E * K := Nat.mul_le_mul_left E (by omega)
    rw [Nat.mul_add, Nat.mul_one, ← hq] at hmul
    omega
  rw [toInt32_coe_split _ (by omega), toInt32_coe_split _ (by omega)]
  by_cases h : netU < 2147483648
  · rw [if_pos h, if_pos (by have := hside h; omega)]
    omega
  · rw [if_neg h, if_neg (by omega)]
    omega

theorem mul_window_bound (E q K n : Nat) (hEK : E * K = n)
    (h : E * q < n) : E * q + E ≤ n := by
  have hqK : q < K := Nat.lt_of_mul_lt_mul_left (by rw [hEK]; exact h)
  have hmul : E * (q + 1) ≤ E * K := Nat.mul_le_mul_left E (by omega)
  rw [Nat.mul_add, Nat.mul_one, hEK] at hmul
  exact hmul

/-- The general correctness of `parseCidr` for valid octets and a prefix
length in `[1, 30]`: the emitted list is exactly the claim's usable-address
list (network and broadcast excluded). -/
theorem parseCidr_general (cidr : Cidr) (ha : cidr.a ≤ 255)
    (hb : cidr.b ≤ 255) (hc : cidr.c ≤ 255) (hd : cidr.d ≤ 255)
    (hp1 : 1 ≤ cidr.prefixLen) (hp30 : cidr.prefixLen ≤ 30) :
    parseCidr cidr = Except.ok (usableAddresses cidr) := by
  obtain ⟨a, b, c, d, p⟩ := cidr
  simp only at ha hb hc hd hp1 hp30
  rw [parseCidr, usableAddresses]
  simp only
  rw [if_neg (by omega), if_neg (by omega)]
  have h31 : ¬ (p ≥ 31) := by omega
  rw [if_neg h31, if_neg h31]
  set E := 2 ^ (32 - p) with hEdef
  set ipU := a * 16777216 + b * 65536 + c * 256 + d with hipUdef
  have hE4 : 4 ≤ E := by
    rw [hEdef]
    calc (4 : Nat) = 2 ^ 2 := by norm_num
      _ ≤ 2 ^ (32 - p) := Nat.pow_le_pow_right (by omega) (by omega)
  have hE31 : E ≤ 2147483648 := by
    rw [hEdef]
    calc (2 : Nat) ^ (32 - p) ≤ 2 ^ 31 :=
        Nat.pow_le_pow_right (by omega) (by omega)
      _ = 2147483648 := by norm_num
  have hipU := u32_ipNum a b c d ha hb hc hd
  rw [← hipUdef] at hipU
  have hipUlt : ipU < 4294967296 := by rw [hipUdef]; omega
  have hmask := jsMask_val p hp1 hp30
  rw [← hEdef] at hmask
  set netU := E * (ipU / E) with hnetUdef
  clear_value netU ipU E
  have hnetlt : netU < 4294967296 := by
    have hle := Nat.div_mul_le_self ipU E
    rw [hnetUdef]
    calc E * (ipU / E) = ipU / E * E := by ring
      _ ≤ ipU := hle
      _ < 4294967296 := hipUlt
  have hnet : jsAnd (jsOr (jsOr (jsOr (jsShl (a : Int) 24)
      (jsShl (b : Int) 16)) (jsShl (c : Int) 8)) (d : Int))
      (jsNot (jsShl 1 (32 - p) - 1))
      = toInt32 ((netU : Nat) : Int) := by
    rw [hmask]
    unfold jsAnd
    have hmaskU : u32 (-((E : Nat) : Int)) = 4294967296 - E := by
      unfold u32
      omega
    have hmaskH : (4294967296 : Nat) - E
        = 2 ^ (p + (32 - p)) - 2 ^ (32 - p) := by
      rw [show p + (32 - p) = 32 by omega, hEdef]
      norm_num
    have hland := land_mask_high ipU p (32 - p)
      (by rw [show p + (32 - p) = 32 by omega]; norm_num; omega)
    rw [hipU, hmaskU, hmaskH, hland, ← hEdef, ← hnetUdef]
    rfl
  have hnotmask : jsNot (-((E : Nat) : Int)) = ((E - 1 : Nat) : Int) := by
    unfold jsNot
    rw [toInt32_eq_self (z := -((E : Nat) : Int)) (by omega) (by omega)]
    push_cast [show (1 : Nat) ≤ E by omega]
    ring
  have hbcast : jsOr (toInt32 ((netU : Nat) : Int)) ((E - 1 : Nat) : Int)
      = toInt32 ((netU + E - 1 : Nat) : Int) := by
    unfold jsOr
    rw [u32_toInt32, u32_coe hnetlt,
      u32_coe (show E - 1 < 4294967296 by omega)]
    have hlor : netU ||| (E - 1) = netU + E - 1 := by
      have h1 : (1 : Nat) ≤ 2 ^ (32 - p) := Nat.one_le_two_pow
      rw [hnetUdef, hEdef,
        lor_disjoint (32 - p) (ipU / 2 ^ (32 - p)) (2 ^ (32 - p) - 1)
          (by omega)]
      omega
    rw [hlor]
    rfl
  rw [hnet, hmask, hnotmask, hbcast]
  refine congrArg Except.ok ?_
  have hhi : netU + E ≤ 4294967296 := by
    rw [hnetUdef]
    refine mul_window_bound _ _ (2 ^ p) _ ?_ (by rw [← hnetUdef]; exact hnetlt)
    rw [hEdef, ← pow_add, show 32 - p + p = 32 by omega]
    norm_num
  have hwin := toInt32_same_window netU E (2 ^ (p - 1)) (ipU / E) hnetUdef
    (by rw [hEdef, ← pow_add, show 32 - p + (p - 1) = 31 by omega]; norm_num)
    (by omega) hhi
  have hlen : (toInt32 ((netU + E - 1 : Nat) : Int) - 1
      - (toInt32 ((netU : Nat) : Int) + 1) + 1).toNat = E - 2 := by
    rw [hwin]
    generalize toInt32 ((netU : Nat) : Int) = X
    clear hipU hnet hmask hbcast hnotmask hwin hhi hnetlt hipUlt hnetUdef hipUdef
    omega
  rw [hlen]
  have hnetspec : ipU - ipU % E = netU := by
    have hdm : netU + ipU % E = ipU := by
      rw [hnetUdef]
      exact Nat.div_add_mod ipU E
    exact Nat.sub_eq_of_eq_add hdm.symm
  rw [hnetspec]
  clear hipU hnet hmask hnotmask hbcast hwin hlen hnetspec hnetUdef hipUdef hEdef hipUlt
  refine List.map_congr_left fun k hk => ?_
  rw [List.mem_range] at hk
  refine congrArg numToIp ?_
  rw [show toInt32 ((netU : Nat) : Int) + 1 + (k : Int)
      = toInt32 ((netU : Nat) : Int) + (1 + (k : Int)) by ring,
    u32_toInt32_add]
  unfold u32
  omega

/-- C8: the three documented upgrade-gating evaluations:
a major bump is never auto-upgraded even with the minor flag on; a minor
bump is blocked when the minor flag is off; a patch bump is always
allowed. -/
theorem shouldAutoUpgrade_gating :
    shouldAutoUpgrade "2.0.0" "1.5.0" true = false ∧
    shouldAutoUpgrade "1.6.0" "1.5.0" false = false ∧
    shouldAutoUpgrade "1.5.1" "1.5.0" false = true := by
  decide

/-- C5: probe cascade.  If the ICMP ping reports `offline` but the TCP
connect to port 443 resolves `online`, and port 80 (the only
earlier-listed fallback port) does not yield a success, the overall probe
result is `online` with method `HTTPS` and the port check's response
time; and if the ping fails and all six fallback ports fail, the overall
result is `offline` with no response time and method `none`. -/
theorem multiProbe_cascade (env : ProbeEnv) :
    (env.ping.status = .offline →
      ∀ rt, env.tcp 443 = .result .online rt →
        portCheck env 80 "HTTP" = none →
        multiProbe env = ⟨.online, rt, "HTTPS"⟩) ∧
    (env.ping.status = .offline →
      (∀ pn ∈ PROBE_PORTS, portCheck env pn.1 pn.2 = none) →
      multiProbe env = ⟨.offline, none, "none"⟩) := by
  constructor
  · intro hping rt h443 h80
    have h443c : portCheck env 443 "HTTPS" = some ⟨.online, rt, "HTTPS"⟩ := by
      unfold portCheck
      rw [h443]
      simp
    unfold multiProbe
    rw [hping]
    simp only [PROBE_PORTS, List.map, List.findSome?, h80, h443c]
    rfl
  · intro hping hall
    unfold multiProbe
    rw [hping]
    have h80 := hall (80, "HTTP") (by decide)
    have h443 := hall (443, "HTTPS") (by decide)
    have h22 := hall (22, "SSH") (by decide)
    have h3389 := hall (3389, "RDP") (by decide)
    have h445 := hall (445, "SMB") (by decide)
    have h53 := hall (53, "DNS") (by decide)
    simp only [PROBE_PORTS] at h80 h443 h22 h3389 h445 h53 ⊢
    simp [List.findSome?, h80, h443, h22, h3389, h445, h53]

/-- Witness for C5 at the two concrete environments. -/
theorem multiProbe_cascade_witness :
    multiProbe probeEnv443 = ⟨.online, some 7, "HTTPS"⟩ ∧
    multiProbe probeEnvAllFail = ⟨.offline, none, "none"⟩ :=
  ⟨(multiProbe_cascade probeEnv443).1 rfl (some 7) rfl (by decide),
    (multiProbe_cascade probeEnvAllFail).2 rfl (by decide)⟩

/-- C10: whatever the ping and port outcomes, `multiProbe` reports only
`online` or `offline` (never `degraded` or `unknown`), and an `offline`
report always carries `responseTime = null` and method `none`. -/
theorem multiProbe_status_total (env : ProbeEnv) :
    ((multiProbe env).status = .online ∨ (multiProbe env).status = .offline) ∧
    ((multiProbe env).status = .offline →
      (multiProbe env).responseTime = none ∧ (multiProbe env).method = "none") := by
  unfold multiProbe
  by_cases hping : env.ping.status = .online
  · simp [hping]
  · rw [if_neg hping]
    cases hfind : (PROBE_PORTS.map fun pn => portCheck env pn.1 pn.2).findSome? id with
    | some r =>
      obtain ⟨x, hx, hid⟩ := List.exists_of_findSome?_eq_some hfind
      simp only [List.mem_map] at hx
      obtain ⟨pn, _, hpn⟩ := hx
      simp only [id] at hid
      subst hid
      have hr := portCheck_eq_some hpn
      constructor
      · exact Or.inl hr.1
      · intro hoff
        rw [hr.1] at hoff
        exact absurd hoff (by decide)
    | none => simp

/-- Witness for C10's offline implication at a concrete environment. -/
theorem multiProbe_status_total_witness :
    (multiProbe probeEnvAllFail).responseTime = none ∧
    (multiProbe probeEnvAllFail).method = "none" :=
  (multiProbe_status_total probeEnvAllFail).2 (by decide)

/-- C1: hysteresis at threshold 2 for a device whose last reported status
is `online` with failure count 0: the first two raw `offline`
observations each increment the failure counter (to 1 then 2) while the
reported status stays `online`; the third raw `offline` observation
reports `offline`; and a raw `online` observation from any state resets
the counter to 0 and reports `online` immediately. -/
theorem hysteresis_threshold_two (st : TrackState) (ip : String)
    (hprev : alookup ip st.lastKnownStatus = some .online)
    (hcount : (alookup ip st.failureCounts).getD 0 = 0) :
    ((applyHysteresis 2 st ip .offline).2 = .online ∧
      alookup ip (applyHysteresis 2 st ip .offline).1.failureCounts = some 1) ∧
    ((applyHysteresis 2 (applyHysteresis 2 st ip .offline).1 ip .offline).2
        = .online ∧
      alookup ip (applyHysteresis 2 (applyHysteresis 2 st ip .offline).1 ip
        .offline).1.failureCounts = some 2) ∧
    (applyHysteresis 2 (applyHysteresis 2 (applyHysteresis 2 st ip
        .offline).1 ip .offline).1 ip .offline).2 = .offline ∧
    (∀ st' : TrackState, (applyHysteresis 2 st' ip .online).2 = .online ∧
      alookup ip (applyHysteresis 2 st' ip .online).1.failureCounts
        = some 0) := by
  have h1 := applyHysteresis_offline_suppress 2 st ip hprev
    (by rw [hcount]; decide)
  have h1fc : alookup ip (applyHysteresis 2 st ip .offline).1.failureCounts
      = some 1 := by
    rw [h1, hcount]
    exact alookup_aset_self ip 1 st.failureCounts
  have h1lk : alookup ip (applyHysteresis 2 st ip
      .offline).1.lastKnownStatus = some .online := by
    rw [h1]
    exact alookup_aset_self ip Status.online st.lastKnownStatus
  have h2 := applyHysteresis_offline_suppress 2
    (applyHysteresis 2 st ip .offline).1 ip h1lk (by rw [h1fc]; decide)
  have h2fc : alookup ip (applyHysteresis 2 (applyHysteresis 2 st ip
      .offline).1 ip .offline).1.failureCounts = some 2 := by
    rw [h2, h1fc]
    exact alookup_aset_self ip 2 _
  have h2lk : alookup ip (applyHysteresis 2 (applyHysteresis 2 st ip
      .offline).1 ip .offline).1.lastKnownStatus = some .online := by
    rw [h2]
    exact alookup_aset_self ip Status.online _
  have h3 := applyHysteresis_offline_flip 2
    (applyHysteresis 2 (applyHysteresis 2 st ip .offline).1 ip .offline).1
    ip h2lk (by rw [h2fc]; decide)
  refine ⟨⟨by rw [h1], h1fc⟩, ⟨by rw [h2], h2fc⟩, by rw [h3], ?_⟩
  intro st'
  rw [applyHysteresis_online 2 st' ip]
  exact ⟨rfl, alookup_aset_self ip 0 st'.failureCounts⟩

/-- Witness for C1 at a concrete state: the three-observation trace and
the reset. -/
theorem hysteresis_threshold_two_witness :
    ((applyHysteresis 2 c1State "192.168.1.10" .offline).2 = .online ∧
      alookup "192.168.1.10" (applyHysteresis 2 c1State "192.168.1.10"
        .offline).1.failureCounts = some 1) ∧
    ((applyHysteresis 2 (applyHysteresis 2 c1State "192.168.1.10"
        .offline).1 "192.168.1.10" .offline).2 = .online ∧
      alookup "192.168.1.10" (applyHysteresis 2 (applyHysteresis 2 c1State
        "192.168.1.10" .offline).1 "192.168.1.10"
        .offline).1.failureCounts = some 2) ∧
    (applyHysteresis 2 (applyHysteresis 2 (applyHysteresis 2 c1State
        "192.168.1.10" .offline).1 "192.168.1.10" .offline).1
        "192.168.1.10" .offline).2 = .offline ∧
    (∀ st' : TrackState,
      (applyHysteresis 2 st' "192.168.1.10" .online).2 = .online ∧
      alookup "192.168.1.10" (applyHysteresis 2 st' "192.168.1.10"
        .online).1.failureCounts = some 0) :=
  hysteresis_threshold_two c1State "192.168.1.10" (by decide) (by decide)

/-- C6 counterexample: after the cycle in which `10.0.0.7` is absent from
the discovered-device set, its `lastKnownStatus` entry is still present
(the claim requires it to have been removed from both maps within that
cycle); pruning only visits keys of the failure-count map, and
`10.0.0.7` never received one because its very first observation was
`offline`. -/
theorem prune_lastKnownStatus_counterexample :
    alookup "10.0.0.7" c6AfterCycle2.lastKnownStatus = some .offline ∧
    alookup "10.0.0.7" c6AfterCycle2.failureCounts = none ∧
    ¬ (alookup "10.0.0.7" c6AfterCycle2.lastKnownStatus = none) := by
  decide

/-- C6 amended: after the pruning step, an inactive IP is removed from
the failure-count map, and removed from the last-known-status map
provided it has a failure-count entry (an IP tracked only in
`lastKnownStatus` survives pruning); active IPs keep both entries
unchanged. -/
theorem pruneDeviceTracking_amended (activeKeys : List String)
    (st : TrackState) (k : String) :
    (activeKeys.contains k = false →
      alookup k (pruneDeviceTracking activeKeys st).failureCounts = none) ∧
    (activeKeys.contains k = false →
      (alookup k st.failureCounts).isSome = true →
      alookup k (pruneDeviceTracking activeKeys st).lastKnownStatus = none) ∧
    (activeKeys.contains k = true →
      alookup k (pruneDeviceTracking activeKeys st).failureCounts
          = alookup k st.failureCounts ∧
      alookup k (pruneDeviceTracking activeKeys st).lastKnownStatus
          = alookup k st.lastKnownStatus) := by
  refine ⟨fun hk => ?_, fun hk hfc => ?_, fun hk => ⟨?_, ?_⟩⟩
  · exact alookup_filter_none k _ st.failureCounts (fun v => hk)
  · exact alookup_filter_none k _ st.lastKnownStatus
      (fun v => by
        show (activeKeys.contains k || !(alookup k st.failureCounts).isSome)
          = false
        rw [hk, hfc]
        rfl)
  · exact alookup_filter_eq k _ st.failureCounts (fun v => hk)
  · exact alookup_filter_eq k _ st.lastKnownStatus
      (fun v => by
        show (activeKeys.contains k || !(alookup k st.failureCounts).isSome)
          = true
        rw [hk]
        rfl)

/-- Witness for C6's amended theorem at a concrete state. -/
theorem pruneDeviceTracking_amended_witness :
    alookup "10.0.0.9" (pruneDeviceTracking ["10.0.0.8"]
      ⟨[("10.0.0.9", 1), ("10.0.0.8", 0)],
        [("10.0.0.9", .online), ("10.0.0.8", .online)]⟩).failureCounts
      = none ∧
    alookup "10.0.0.9" (pruneDeviceTracking ["10.0.0.8"]
      ⟨[("10.0.0.9", 1), ("10.0.0.8", 0)],
        [("10.0.0.9", .online), ("10.0.0.8", .online)]⟩).lastKnownStatus
      = none ∧
    alookup "10.0.0.8" (pruneDeviceTracking ["10.0.0.8"]
      ⟨[("10.0.0.9", 1), ("10.0.0.8", 0)],
        [("10.0.0.9", .online), ("10.0.0.8", .online)]⟩).failureCounts
      = some 0 :=
  ⟨(pruneDeviceTracking_amended ["10.0.0.8"] _ "10.0.0.9").1 (by decide),
    (pruneDeviceTracking_amended ["10.0.0.8"] _ "10.0.0.9").2.1 (by decide)
      (by decide),
    by
      rw [((pruneDeviceTracking_amended ["10.0.0.8"] _ "10.0.0.8").2.2
        (by decide)).1]
      decide⟩

/-- C4 (code bug evidence): the delay the heartbeat loop actually sleeps
is always `min(heartbeatInterval, 60000)`, independent of the outcome and
of the `retryDelay` variable; with the default 60-second interval the
loop waits 60 s after a failure, not the claimed 2-second doubling
backoff.  The `retryDelay` variable itself does follow the claimed
policy (2000 initial, doubled per failure, capped at 60000, reset on
success) — it is computed but never used for the wait. -/
theorem heartbeat_backoff_not_applied :
    (∀ (interval rd : Nat) (ok : Bool),
      (heartbeatStep interval rd ok).2 = min interval 60000) ∧
    (heartbeatStep 60000 2000 false).2 = 60000 ∧
    heartbeatRetryDelayAfter [false] = 4000 ∧
    heartbeatRetryDelayAfter [false, false, false] = 16000 ∧
    heartbeatRetryDelayAfter [false, false, false, false, false, false]
      = 60000 ∧
    heartbeatRetryDelayAfter [false, false, true] = 2000 := by
  exact ⟨fun _ _ _ => rfl, rfl, rfl, rfl, rfl, rfl⟩

/-- C9: the scan loop's per-IP table update is non-destructive on status
fields: when the incoming record's IP already has an entry, the new entry
keeps the prior entry's `status`, `responseTime` and `lastCheck`
unchanged while `name`, `ip` and `mac` are replaced from the new
discovery record; `status` defaults to `unknown` only when no prior entry
exists; entries for other IPs are untouched. -/
theorem scanLoop_merge_nondestructive (table : List (String × DeviceInfo))
    (d : DiscoveredDevice) :
    (∀ e, alookup d.ip_address table = some e →
      ∃ e', alookup d.ip_address (scanLoopMergeDevice table d) = some e' ∧
        e'.status = e.status ∧ e'.responseTime = e.responseTime ∧
        e'.lastCheck = e.lastCheck ∧
        e'.name = (if strTruthy d.hostname then d.hostname.getD ""
          else d.ip_address) ∧
        e'.ip = d.ip_address ∧ e'.mac = d.mac_address) ∧
    (alookup d.ip_address table = none →
      ∃ e', alookup d.ip_address (scanLoopMergeDevice table d) = some e' ∧
        e'.status = .unknown ∧ e'.responseTime = none ∧
        e'.lastCheck = none ∧
        e'.name = (if strTruthy d.hostname then d.hostname.getD ""
          else d.ip_address) ∧
        e'.ip = d.ip_address ∧ e'.mac = d.mac_address) ∧
    (∀ k, k ≠ d.ip_address →
      alookup k (scanLoopMergeDevice table d) = alookup k table) := by
  have hset : alookup d.ip_address (scanLoopMergeDevice table d)
      = some (scanLoopDeviceInfo (alookup d.ip_address table) d) :=
    alookup_aset_self d.ip_address _ table
  refine ⟨fun e he => ?_, fun hnone => ?_, fun k hk => ?_⟩
  · refine ⟨scanLoopDeviceInfo (alookup d.ip_address table) d, hset,
      ?_, ?_, ?_, rfl, rfl, rfl⟩ <;> simp [scanLoopDeviceInfo, he]
  · refine ⟨scanLoopDeviceInfo (alookup d.ip_address table) d, hset,
      ?_, ?_, ?_, rfl, rfl, rfl⟩ <;> simp [scanLoopDeviceInfo, hnone]
  · exact alookup_aset_ne d.ip_address k _ table hk

/-- C7 counterexample: at prefix length 0 (which the claim "prefix
length at most 30" includes), the JavaScript shift `1 << 32` evaluates to
`1` (shift counts are taken modulo 32), so the mask becomes all-ones and
`expandCidr("0.0.0.0/0")` returns the empty list instead of the
2^32 - 2 usable addresses the claim requires. -/
theorem expandCidr_prefix0_counterexample :
    expandCidr ⟨0, 0, 0, 0, 0⟩ = Except.ok [] ∧
    (usableAddresses ⟨0, 0, 0, 0, 0⟩).length = 4294967294 ∧
    ¬ (expandCidr ⟨0, 0, 0, 0, 0⟩
        = Except.ok (usableAddresses ⟨0, 0, 0, 0, 0⟩)) := by
  have h1 : expandCidr ⟨0, 0, 0, 0, 0⟩ = Except.ok [] := by
    rfl
  have h2 : (usableAddresses ⟨0, 0, 0, 0, 0⟩).length = 4294967294 := by
    simp only [usableAddresses, List.length_map, List.length_range]
    norm_num
  refine ⟨h1, h2, fun hcontra => ?_⟩
  rw [h1] at hcontra
  have hnil := Except.ok.inj hcontra
  have hlen := congrArg List.length hnil
  rw [h2] at hlen
  simp at hlen

/-- C7 amended: for every valid dotted quad and prefix length between 1
and 30, `expandCidr` returns exactly the usable addresses of the block,
excluding the network and broadcast addresses; in particular
`192.168.1.0/24` yields 254 addresses, the first `192.168.1.1` and the
last `192.168.1.254`.  (Prefix length 0 is excluded: there the shift
wraps and the result is empty — see the counterexample.) -/
theorem expandCidr_usable_amended :
    (∀ cidr : Cidr, cidr.a ≤ 255 → cidr.b ≤ 255 → cidr.c ≤ 255 →
      cidr.d ≤ 255 → 1 ≤ cidr.prefixLen → cidr.prefixLen ≤ 30 →
      expandCidr cidr = Except.ok (usableAddresses cidr)) ∧
    (∃ l, expandCidr ⟨192, 168, 1, 0, 24⟩ = Except.ok l ∧
      l.length = 254 ∧ l.head? = some "192.168.1.1" ∧
      l.getLast? = some "192.168.1.254") := by
  have hgen : ∀ cidr : Cidr, cidr.a ≤ 255 → cidr.b ≤ 255 →
      cidr.c ≤ 255 → cidr.d ≤ 255 → 1 ≤ cidr.prefixLen →
      cidr.prefixLen ≤ 30 →
      expandCidr cidr = Except.ok (usableAddresses cidr) :=
    fun cidr ha hb hc hd hp1 hp30 =>
      parseCidr_general cidr ha hb hc hd hp1 hp30
  refine ⟨hgen, usableAddresses ⟨192, 168, 1, 0, 24⟩,
    hgen ⟨192, 168, 1, 0, 24⟩ (by decide) (by decide) (by decide)
      (by decide) (by decide) (by decide), ?_, ?_, ?_⟩
  · simp only [usableAddresses, List.length_map, List.length_range]
    norm_num
  · decide
  · decide

/-- Witness for C7's amended theorem at the concrete CIDR `10.0.0.0/30`:
two usable addresses, network `10.0.0.0` and broadcast `10.0.0.3`
excluded. -/
theorem expandCidr_usable_amended_witness :
    expandCidr ⟨10, 0, 0, 0, 30⟩ = Except.ok ["10.0.0.1", "10.0.0.2"] := by
  rw [expandCidr_usable_amended.1 ⟨10, 0, 0, 0, 30⟩ (by decide) (by decide)
    (by decide) (by decide) (by decide) (by decide)]
  exact congrArg Except.ok (by decide)

/-- C2 counterexample: with two records for the same IP carrying
different non-empty hostnames, `mergeDiscoveredDevices([A,B])` keeps
hostname `alpha` while `mergeDiscoveredDevices([B,A])` keeps `beta`
(first writer wins per field), so the merged fields are not identical
and the claimed commutativity fails. -/
theorem merge_not_commutative_counterexample :
    ((findByIp "192.168.1.50"
        (mergeDiscoveredDevices [[c2DevA], [c2DevB]])).map
        DiscoveredDevice.hostname = some (some "alpha")) ∧
    ((findByIp "192.168.1.50"
        (mergeDiscoveredDevices [[c2DevB], [c2DevA]])).map
        DiscoveredDevice.hostname = some (some "beta")) ∧
    ¬ (mergeDiscoveredDevices [[c2DevA], [c2DevB]]
        = mergeDiscoveredDevices [[c2DevB], [c2DevA]]) := by
  decide

/-- C2 amended: merge-order insensitivity holds per IP whenever no IP
occurs in both lists (so no first-writer-wins conflict can arise), and
merging a list with itself equals the list's own merge whenever every
record's collection fields are duplicate-free. -/
theorem merge_comm_idem_amended (A B : List DiscoveredDevice) :
    ((∀ a ∈ A, ∀ b ∈ B, a.ip_address ≠ b.ip_address) →
      ∀ ip, findByIp ip (mergeDiscoveredDevices [A, B])
        = findByIp ip (mergeDiscoveredDevices [B, A])) ∧
    ((∀ r ∈ A, collectionsNodup r) →
      mergeDiscoveredDevices [A, A] = mergeDiscoveredDevices [A]) := by
  constructor
  · intro hdisj ip
    rw [findByIp_mergeTwo, findByIp_mergeTwo]
    by_cases hA : A.filter (fun r => r.ip_address = ip) = []
    · rw [hA, List.nil_append, List.append_nil]
    · have hB : B.filter (fun r => r.ip_address = ip) = [] := by
        rw [List.filter_eq_nil_iff]
        intro b hb
        simp only [decide_eq_true_eq]
        intro hbip
        obtain ⟨a, ha⟩ := List.exists_mem_of_ne_nil _ hA
        have ha2 := List.mem_filter.mp ha
        have haip : a.ip_address = ip := by simpa using ha2.2
        exact hdisj a ha2.1 b hb (haip.trans hbip.symm)
      rw [hB, List.append_nil, List.nil_append]
  · intro hnd
    show A.foldl mergeInto (A.foldl mergeInto []) = A.foldl mergeInto []
    apply foldl_mergeInto_fixed
    intro a ha
    have hufind : findByIp a.ip_address (A.foldl mergeInto [])
        = mergeRun none
            (A.filter fun r => r.ip_address = a.ip_address) := by
      rw [findByIp_foldl]
      rfl
    cases hfa : A.filter (fun r => r.ip_address = a.ip_address) with
    | nil =>
      exfalso
      have hmem : a ∈ A.filter (fun r => r.ip_address = a.ip_address) :=
        List.mem_filter.mpr ⟨ha, by simp⟩
      rw [hfa] at hmem
      exact absurd hmem (List.not_mem_nil a)
    | cons d ds =>
      have hfind : findByIp a.ip_address (A.foldl mergeInto [])
          = some (foldCombine d ds) := by
        rw [hufind, hfa]
        exact mergeRun_some ds d
      have hdnd : collectionsNodup d := by
        have hd : d ∈ A.filter (fun r => r.ip_address = a.ip_address) := by
          rw [hfa]
          exact List.mem_cons_self d ds
        exact hnd d (List.mem_filter.mp hd).1
      obtain ⟨ndE, monoE, allE⟩ := foldCombine_inv ds d hdnd
      have habsA : canAbsorb (foldCombine d ds) a := by
        have haf : a ∈ A.filter (fun r => r.ip_address = a.ip_address) :=
          List.mem_filter.mpr ⟨ha, by simp⟩
        rw [hfa] at haf
        rcases List.mem_cons.mp haf with rfl | haf
        · exact monoE a (canAbsorb_refl a)
        · exact allE a haf
      exact mergeInto_fixed
        (foldl_mergeInto_ipsUnique A [] List.Pairwise.nil) hfind
        (combineDevice_absorb _ a ndE habsA)

/-- Witness for C2's amended theorem at concrete disjoint lists. -/
theorem merge_comm_idem_amended_witness :
    (∀ ip, findByIp ip (mergeDiscoveredDevices [[c2DevC], [c2DevD]])
      = findByIp ip (mergeDiscoveredDevices [[c2DevD], [c2DevC]])) ∧
    mergeDiscoveredDevices [[c2DevC], [c2DevC]]
      = mergeDiscoveredDevices [[c2DevC]] :=
  ⟨(merge_comm_idem_amended [c2DevC] [c2DevD]).1 (by decide),
    (merge_comm_idem_amended [c2DevC] [c2DevC]).2 (by decide)⟩

/-- C3 counterexample: for a pending `update_config` command whose
success acknowledgment call rejects, the outer `catch` makes a second
acknowledgment call — two calls, not the claimed exactly one, and the
failed acknowledgment *is* retried (as a failure acknowledgment). -/
theorem processCommand_double_ack_counterexample :
    (processCommand c3ThrowEnv c3UpdateCmd).acks.length = 2 ∧
    ¬ (processCommand c3ThrowEnv c3UpdateCmd).acks.length = 1 := by
  decide

/-- C3 amended: a non-pending command produces no acknowledgment; a
pending command produces at most two acknowledgment calls, and at least
one unless it is `ping` (whose success path is acknowledged through the
ping endpoint via `sendPong` rather than `acknowledgeCommand`); when no
awaited call rejects, exactly one acknowledgment call is made (zero for
`ping`); and when a second call does happen (because the first
acknowledgment call or the post-acknowledgment upgrade work rejected) it
is a failure acknowledgment, whose own rejection is swallowed without any
third call. -/
theorem processCommand_ack_discipline (env : CmdEnv) (c : AgentCommand) :
    (c.status ≠ .pending → processCommand env c = ⟨[], false, false⟩) ∧
    (processCommand env c).acks.length ≤ 2 ∧
    (c.status = .pending → c.command_type ≠ .ping →
      1 ≤ (processCommand env c).acks.length) ∧
    (c.status = .pending → env.sendPongThrows = false →
      env.workThrows = false → env.upgradeThrows = false →
      (∀ n, env.ackThrows n = false) →
      (processCommand env c).acks.length
        = if c.command_type = .ping then 0 else 1) ∧
    (∀ a b, (processCommand env c).acks = [a, b] → b.1 = false) := by
  obtain ⟨cid, ct, st⟩ := c
  by_cases hst : st = CmdStatus.pending
  · subst hst
    refine ⟨fun h => absurd rfl h, ?_, ?_, ?_, fun a b hab => ?_⟩
    · cases ct <;>
        simp only [processCommand, processPendingCommand, ackInTry,
          ackFromCatch, if_pos] <;>
        split_ifs <;> simp_all
    · cases ct <;>
        simp only [processCommand, processPendingCommand, ackInTry,
          ackFromCatch, if_pos] <;>
        intros <;> split_ifs <;> simp_all
    · cases ct <;>
        simp only [processCommand, processPendingCommand, ackInTry,
          ackFromCatch, if_pos] <;>
        intros <;> split_ifs at * <;> simp_all
    · cases ct <;>
        simp only [processCommand, processPendingCommand, ackInTry,
          ackFromCatch, if_pos] at hab <;>
        split_ifs at hab <;>
        (try simp at hab) <;>
        (obtain ⟨h1, h2⟩ := hab
         cases h2
         rfl)
  · refine ⟨fun _ => by simp [processCommand, hst], ?_, ?_, ?_, ?_⟩ <;>
      simp_all [processCommand, hst]

/-- Witness for C3's amended theorem: a pending `scan_now` command with
all calls succeeding is acknowledged exactly once, and a non-pending
command produces no acknowledgment. -/
theorem processCommand_ack_discipline_witness :
    (processCommand c3OkEnv c3ScanCmd).acks.length = 1 ∧
    processCommand c3OkEnv c3DoneCmd = ⟨[], false, false⟩ :=
  ⟨by
    have h := (processCommand_ack_discipline c3OkEnv c3ScanCmd).2.2.2.1
      rfl rfl rfl rfl (fun _ => rfl)
    simpa using h,
    (processCommand_ack_discipline c3OkEnv c3DoneCmd).1 (by decide)⟩

/-- Witness for C9 at a concrete table: the merged entry keeps the prior
status fields, takes the new identity fields, and an unrelated key is
untouched. -/
theorem scanLoop_merge_nondestructive_witness :
    (∃ e', alookup "10.0.0.1"
        (scanLoopMergeDevice [("10.0.0.1", c9Prior)] c9Record) = some e' ∧
      e'.status = c9Prior.status ∧ e'.responseTime = c9Prior.responseTime ∧
      e'.lastCheck = c9Prior.lastCheck ∧
      e'.name = (if strTruthy c9Record.hostname then
        c9Record.hostname.getD "" else c9Record.ip_address) ∧
      e'.ip = c9Record.ip_address ∧ e'.mac = c9Record.mac_address) ∧
    alookup "10.0.0.9"
        (scanLoopMergeDevice [("10.0.0.1", c9Prior)] c9Record)
      = alookup "10.0.0.9" [("10.0.0.1", c9Prior)] :=
  ⟨(scanLoop_merge_nondestructive [("10.0.0.1", c9Prior)] c9Record).1
      c9Prior (by decide),
    (scanLoop_merge_nondestructive [("10.0.0.1", c9Prior)] c9Record).2.2
      "10.0.0.9" (by decide)⟩

end VelocityPulse
